import Mathlib

/-!
# Verification of the pharma-nel substance graph aggregation core

Shallow embedding of the identity-key generator, the graph accumulator,
the substance-enrichment pipeline, and the persistence writer of the
`pharma-nel` backend
(`src/domain/entities/pharma_graph.py`,
 `src/domain/services/substance_enrichment_service.py`,
 `src/infrastructure/database/repositories/openfda_graph_repository.py`),
together with theorems settling the frozen claims about them.

Conventions of the embedding:
* Python `dict`s that are only inserted into under a `not in` guard are
  association lists in insertion order (`List (String × α)`); in-place
  field mutation of a stored entity is modelled by rewriting its binding.
* Python string truthiness (`if s:`) is the test `s ≠ ""`; `x or y` on
  strings/optionals is an explicit first-truthy choice.
* `str.lower` / `str.upper` / `str.strip` are modelled on their ASCII
  behaviour (`Char.toLower` etc.), which agrees with Python on every
  string the service manipulates.
* `hashlib.md5` is embedded as a full executable MD5 over UTF-8 bytes
  (`Nat` arithmetic mod 2^32).
* Float payloads (molecular weight) are carried opaquely as strings; the
  code never computes with them, it only copies them.
-/

namespace PharmaNel

/-! ## Python string primitives -/

/-- ASCII `str.lower` (agrees with Python on ASCII input). -/
def pyLower (s : String) : String := String.mk (s.data.map Char.toLower)

/-- ASCII `str.upper`. -/
def pyUpper (s : String) : String := String.mk (s.data.map Char.toUpper)

/-- Python whitespace (`str.strip()` default set). -/
def isPyWhitespace (c : Char) : Bool :=
  c = ' ' || c = '\t' || c = '\n' || c = '\r' || c.toNat = 11 || c.toNat = 12

/-- `str.strip()` — trim surrounding whitespace. -/
def pyStrip (s : String) : String :=
  String.mk (((s.data.dropWhile isPyWhitespace).reverse.dropWhile isPyWhitespace).reverse)

/-- Python string truthiness: non-empty. -/
def strTruthy (s : String) : Bool := s ≠ ""

/-- Truthiness of an optional string (`None` and `""` are falsy). -/
def optTruthy : Option String → Bool
  | none => false
  | some s => strTruthy s

/-- Python `a or b` for a string-valued left operand. -/
def pyOrS (a b : String) : String := if a = "" then b else a

/-- Python slicing `s[:n]` — the first `n` characters. -/
def pyTake (s : String) (n : Nat) : String := String.mk (s.data.take n)

/-- Python `a or b` where `a` is `str | None` and `b` is a string. -/
def pyOrOS (a : Option String) (b : String) : String :=
  match a with
  | none => b
  | some s => pyOrS s b

/-! ## MD5 (`hashlib.md5(...).hexdigest()`) -/

/-- Reduce modulo 2^32. -/
def u32 (n : Nat) : Nat := n % 4294967296

/-- 32-bit left rotation (arguments already reduced mod 2^32). -/
def rotl (x s : Nat) : Nat := Nat.lor (u32 (x <<< s)) (x >>> (32 - s))

/-- 32-bit complement. -/
def not32 (x : Nat) : Nat := Nat.xor x 4294967295

def md5F (b c d : Nat) : Nat := Nat.lor (Nat.land b c) (Nat.land (not32 b) d)

def md5G (b c d : Nat) : Nat := Nat.lor (Nat.land d b) (Nat.land (not32 d) c)

def md5H (b c d : Nat) : Nat := Nat.xor (Nat.xor b c) d

def md5I (b c d : Nat) : Nat := Nat.xor c (Nat.lor b (not32 d))

/-- The 64 MD5 sine-derived constants. -/
def md5K : List Nat :=
  [0xd76aa478, 0xe8c7b756, 0x242070db, 0xc1bdceee,
   0xf57c0faf, 0x4787c62a, 0xa8304613, 0xfd469501,
   0x698098d8, 0x8b44f7af, 0xffff5bb1, 0x895cd7be,
   0x6b901122, 0xfd987193, 0xa679438e, 0x49b40821,
   0xf61e2562, 0xc040b340, 0x265e5a51, 0xe9b6c7aa,
   0xd62f105d, 0x02441453, 0xd8a1e681, 0xe7d3fbc8,
   0x21e1cde6, 0xc33707d6, 0xf4d50d87, 0x455a14ed,
   0xa9e3e905, 0xfcefa3f8, 0x676f02d9, 0x8d2a4c8a,
   0xfffa3942, 0x8771f681, 0x6d9d6122, 0xfde5380c,
   0xa4beea44, 0x4bdecfa9, 0xf6bb4b60, 0xbebfbc70,
   0x289b7ec6, 0xeaa127fa, 0xd4ef3085, 0x04881d05,
   0xd9d4d039, 0xe6db99e5, 0x1fa27cf8, 0xc4ac5665,
   0xf4292244, 0x432aff97, 0xab9423a7, 0xfc93a039,
   0x655b59c3, 0x8f0ccc92, 0xffeff47d, 0x85845dd1,
   0x6fa87e4f, 0xfe2ce6e0, 0xa3014314, 0x4e0811a1,
   0xf7537e82, 0xbd3af235, 0x2ad7d2bb, 0xeb86d391]

/-- The 64 per-round rotation amounts. -/
def md5S : List Nat :=
  [7, 12, 17, 22, 7, 12, 17, 22, 7, 12, 17, 22, 7, 12, 17, 22,
   5, 9, 14, 20, 5, 9, 14, 20, 5, 9, 14, 20, 5, 9, 14, 20,
   4, 11, 16, 23, 4, 11, 16, 23, 4, 11, 16, 23, 4, 11, 16, 23,
   6, 10, 15, 21, 6, 10, 15, 21, 6, 10, 15, 21, 6, 10, 15, 21]

structure MD5State where
  a : Nat
  b : Nat
  c : Nat
  d : Nat

/-- One of the 64 rounds on a 16-word message block `M`. -/
def md5Round (M : List Nat) (st : MD5State) (i : Nat) : MD5State :=
  let f :=
    if i < 16 then md5F st.b st.c st.d
    else if i < 32 then md5G st.b st.c st.d
    else if i < 48 then md5H st.b st.c st.d
    else md5I st.b st.c st.d
  let g :=
    if i < 16 then i
    else if i < 32 then (5 * i + 1) % 16
    else if i < 48 then (3 * i + 5) % 16
    else (7 * i) % 16
  let tmp := u32 (f + st.a + md5K.getD i 0 + M.getD g 0)
  { a := st.d
    b := u32 (st.b + rotl tmp (md5S.getD i 0))
    c := st.b
    d := st.c }

/-- Assemble little-endian 32-bit words from a byte list. -/
def leWords : List Nat → List Nat
  | b0 :: b1 :: b2 :: b3 :: rest =>
      (b0 + 256 * b1 + 65536 * b2 + 16777216 * b3) :: leWords rest
  | _ => []

/-- Process one 64-byte block. -/
def md5Chunk (st : MD5State) (block : List Nat) : MD5State :=
  let M := leWords block
  let r := (List.range 64).foldl (md5Round M) st
  ⟨u32 (st.a + r.a), u32 (st.b + r.b), u32 (st.c + r.c), u32 (st.d + r.d)⟩

/-- Little-endian byte expansion, `k` bytes of `n`. -/
def leBytes (k n : Nat) : List Nat :=
  match k with
  | 0 => []
  | k + 1 => n % 256 :: leBytes k (n / 256)

/-- MD5 padding: `0x80`, zeros to 56 mod 64, then the 64-bit LE bit length. -/
def md5Pad (msg : List Nat) : List Nat :=
  let len := msg.length
  msg ++ [128] ++ List.replicate ((119 - len % 64) % 64) 0
      ++ leBytes 8 ((8 * len) % 18446744073709551616)

/-- Split into 64-byte blocks (structural recursion on a fuel bound that the
byte length always dominates). -/
def chunks64Fuel : Nat → List Nat → List (List Nat)
  | 0, _ => []
  | _, [] => []
  | fuel + 1, l => l.take 64 :: chunks64Fuel fuel (l.drop 64)

def chunks64 (l : List Nat) : List (List Nat) := chunks64Fuel l.length l

def md5Init : MD5State := ⟨0x67452301, 0xefcdab89, 0x98badcfe, 0x10325476⟩

/-- The 16-byte MD5 digest of a byte message. -/
def md5Bytes (msg : List Nat) : List Nat :=
  let fin := (chunks64 (md5Pad msg)).foldl md5Chunk md5Init
  leBytes 4 fin.a ++ leBytes 4 fin.b ++ leBytes 4 fin.c ++ leBytes 4 fin.d

/-- Lowercase hexadecimal digit characters. -/
def hexChars : List Char := "0123456789abcdef".data

def hexDigitChar (n : Nat) : Char := hexChars.getD n '0'

/-- Two lowercase hex characters of one byte. -/
def byteHex (b : Nat) : List Char := [hexDigitChar (b / 16 % 16), hexDigitChar (b % 16)]

/-- UTF-8 encoding of one character (`str.encode()`). -/
def utf8Char (c : Char) : List Nat :=
  let n := c.toNat
  if n < 128 then [n]
  else if n < 2048 then [192 + n / 64, 128 + n % 64]
  else if n < 65536 then [224 + n / 4096, 128 + n / 64 % 64, 128 + n % 64]
  else [240 + n / 262144, 128 + n / 4096 % 64, 128 + n / 64 % 64, 128 + n % 64]

def utf8Bytes (s : String) : List Nat := (s.data.map utf8Char).flatten

/-- `hashlib.md5(s.encode()).hexdigest()`. -/
def md5Hex (s : String) : String := String.mk ((md5Bytes (utf8Bytes s)).map byteHex).flatten

/-- `hashlib.md5(s.encode()).hexdigest()[:16]` — the first 16 characters. -/
def md5Hex16 (s : String) : String := String.mk ((md5Hex s).data.take 16)

/-! ## `generate_key` (`pharma_graph.py`, lines 26–45) -/

/-- Is `c` allowed by the key alphabet `[a-z0-9_]`? -/
def isKeyChar (c : Char) : Bool :=
  (97 ≤ c.toNat && c.toNat ≤ 122) || (48 ≤ c.toNat && c.toNat ≤ 57) || c = '_'

/-- Python `str.isdigit` on an ASCII character. -/
def isPyDigit (c : Char) : Bool := 48 ≤ c.toNat && c.toNat ≤ 57

/-- `"_".join(str(arg).lower().strip() for arg in args if arg)`. -/
def combinedOf (args : List String) : String :=
  String.intercalate "_" ((args.filter (fun a => a ≠ "")).map (fun a => pyStrip (pyLower a)))

/-- `re.sub(r"[^a-z0-9_]", "_", s)`. -/
def subNonKey (s : String) : String :=
  String.mk (s.data.map fun c => if isKeyChar c then c else '_')

/-- `re.sub(r"_+", "_", ·)` — collapse runs of underscores (the flag records
whether the previous character was an underscore). -/
def collapseUndAux : Bool → List Char → List Char
  | _, [] => []
  | prevU, c :: rest =>
      if c = '_' then
        if prevU then collapseUndAux true rest
        else '_' :: collapseUndAux true rest
      else c :: collapseUndAux false rest

def collapseUnd (l : List Char) : List Char := collapseUndAux false l

/-- `.strip("_")`. -/
def stripUnd (l : List Char) : List Char :=
  ((l.dropWhile (· = '_')).reverse.dropWhile (· = '_')).reverse

/-- The `clean` value just before the digit-prefix step. -/
def cleanOf (args : List String) : String :=
  String.mk (stripUnd (collapseUnd (subNonKey (combinedOf args)).data))

/-- The `clean` value after the digit-prefix step (`k_` when `clean[0]` is a
digit). -/
def cleanedOf (args : List String) : String :=
  let clean := cleanOf args
  if clean = "" then clean
  else if isPyDigit (clean.data.headD ' ') then "k_" ++ clean else clean

/-- `generate_key(*args)`. -/
def generate_key (args : List String) : Option String :=
  let combined := combinedOf args
  if combined = "" then none
  else
    let clean := cleanOf args
    if clean = "" then none
    else
      let cleaned := cleanedOf args
      if cleaned.length > 64 then some (md5Hex16 combined)
      else some cleaned

/-! ## `Edge` and its identities (`pharma_graph.py`, lines 48–72) -/

structure EdgeT where
  from_collection : String
  from_key : String
  to_collection : String
  to_key : String
  edge_collection : String
  properties : List (String × String) := []
deriving DecidableEq, Repr

namespace EdgeT

/-- `Edge.get_unique_id` — the in-run dedup identity. -/
def uniqueId (e : EdgeT) : String :=
  e.from_collection ++ "/" ++ e.from_key ++ "->" ++ e.to_collection ++ "/"
    ++ e.to_key ++ "@" ++ e.edge_collection

/-- The string hashed for the storage `_key` in `Edge.to_dict`. -/
def hashInput (e : EdgeT) : String :=
  e.from_collection ++ "/" ++ e.from_key ++ "_" ++ e.to_collection ++ "/"
    ++ e.to_key ++ "_" ++ e.edge_collection

/-- The deterministic content-hash storage key of `Edge.to_dict`. -/
def storeKey (e : EdgeT) : String := md5Hex16 e.hashInput

/-- The five addressing components, without the property bag. -/
def tuple (e : EdgeT) : String × String × String × String × String :=
  (e.from_collection, e.from_key, e.to_collection, e.to_key, e.edge_collection)

end EdgeT

end PharmaNel

namespace PharmaNel

/-! ## Association-list model of Python dicts (insertion order preserved) -/

/-- Python dict read: the binding of `k`, if any. -/
def alGet {α : Type} (m : List (String × α)) (k : String) : Option α :=
  (m.find? (fun p => p.1 == k)).map (·.2)

/-- Python `k in d`. -/
def alHas {α : Type} (m : List (String × α)) (k : String) : Bool := (alGet m k).isSome

/-- `d[k] = v` performed only under a `k not in d` guard: append. -/
def alAdd {α : Type} (m : List (String × α)) (k : String) (v : α) : List (String × α) :=
  m ++ [(k, v)]

/-- In-place mutation of the entity stored at `k`. -/
def alSet {α : Type} (m : List (String × α)) (k : String) (f : α → α) : List (String × α) :=
  m.map (fun p => if p.1 == k then (p.1, f p.2) else p)

/-- Unguarded `d[k] = v` (insert-or-overwrite). -/
def alPut {α : Type} (m : List (String × α)) (k : String) (v : α) : List (String × α) :=
  if alHas m k then m.map (fun p => if p.1 == k then (k, v) else p) else m ++ [(k, v)]

/-! ## Domain entities (`src/domain/entities/*.py`), fields as in the dataclasses.
Timestamps are carried as opaque strings; the molecular-weight float is carried
as an opaque string as well (it is only copied, never computed with). -/

structure Drug where
  key : String
  application_number : Option String := none
  brand_names : List String := []
  generic_names : List String := []
  ndc_codes : List String := []
  rxcui : List String := []
  spl_id : List String := []
  sponsor_name : Option String := none
  drug_type : Option String := none
  source : String := "api"
  is_enriched : Bool := false
  is_alias : Bool := false
  enriched_at : Option String := none
  created_at : Option String := none
  updated_at : Option String := none
deriving DecidableEq, Repr

structure Substance where
  key : String
  name : String
  unii : Option String := none
  rxcui : Option String := none
  formula : Option String := none
  molecular_weight : Option String := none
  smiles : Option String := none
  inchi : Option String := none
  inchi_key : Option String := none
  cas_number : Option String := none
  pubchem_id : Option String := none
  substance_class : Option String := none
  stereochemistry : Option String := none
  is_enriched : Bool := false
  enriched_at : Option String := none
  created_at : Option String := none
  updated_at : Option String := none
deriving DecidableEq, Repr

/-- Modelled from the spec: `manufacturer.py` is absent from `src/`; the spec's
data model (§3) gives each entity an identity key and descriptive fields, and the
service constructs manufacturers as `Manufacturer(key=…, name=…)`. -/
structure Manufacturer where
  key : String
  name : String
  created_at : Option String := none
  updated_at : Option String := none
deriving DecidableEq, Repr

/-- Modelled from the spec: `route.py` is absent from `src/`; constructed by the
service as `Route(key=…, name=…)`. -/
structure RouteE where
  key : String
  name : String
  created_at : Option String := none
  updated_at : Option String := none
deriving DecidableEq, Repr

structure DosageForm where
  key : String
  name : String
  created_at : Option String := none
  updated_at : Option String := none
deriving DecidableEq, Repr

/-- Modelled from the spec: `pharm_class.py` is absent from `src/`; constructed
by the service as `PharmClass(key=…, name=…, class_type=…)`. -/
structure PharmClass where
  key : String
  name : String
  class_type : String
  created_at : Option String := none
  updated_at : Option String := none
deriving DecidableEq, Repr

structure Reaction where
  key : String
  name : String
  meddra_version : Option String := none
  created_at : Option String := none
  updated_at : Option String := none
deriving DecidableEq, Repr

structure FDAApplication where
  key : String
  application_number : String
  submission_type : Option String := none
  submission_number : Option String := none
  submission_status : Option String := none
  submission_status_date : Option String := none
  review_priority : Option String := none
  created_at : Option String := none
  updated_at : Option String := none
deriving DecidableEq, Repr

structure Product where
  key : String
  product_number : Option String := none
  package_ndc : Option String := none
  brand_name : Option String := none
  dosage_form : Option String := none
  route : Option String := none
  marketing_status : Option String := none
  description : Option String := none
  created_at : Option String := none
  updated_at : Option String := none
deriving DecidableEq, Repr

structure Interaction where
  key : String
  severity : Option String := none
  description : Option String := none
  source_drug_rxcui : Option String := none
  source_drug_name : Option String := none
  target_drug_rxcui : Option String := none
  target_drug_name : Option String := none
  source_api : String := "rxnorm"
  created_at : Option String := none
  updated_at : Option String := none
deriving DecidableEq, Repr

structure DrugLabel where
  key : String
  spl_id : Option String := none
  set_id : Option String := none
  version : Option String := none
  effective_time : Option String := none
  description : Option String := none
  clinical_pharmacology : Option String := none
  mechanism_of_action : Option String := none
  indications_and_usage : Option String := none
  dosage_and_administration : Option String := none
  contraindications : Option String := none
  warnings_and_cautions : Option String := none
  boxed_warning : Option String := none
  adverse_reactions : Option String := none
  drug_interactions : Option String := none
  created_at : Option String := none
  updated_at : Option String := none
deriving DecidableEq, Repr

/-! ## `SubstanceGraphData` (`pharma_graph.py`, lines 75–108) -/

structure GraphData where
  search_term : String
  found : Bool := false
  drugs : List (String × Drug) := []
  substances : List (String × Substance) := []
  manufacturers : List (String × Manufacturer) := []
  routes : List (String × RouteE) := []
  dosage_forms : List (String × DosageForm) := []
  pharm_classes : List (String × PharmClass) := []
  reactions : List (String × Reaction) := []
  applications : List (String × FDAApplication) := []
  products : List (String × Product) := []
  interactions : List (String × Interaction) := []
  drug_labels : List (String × DrugLabel) := []
  edges : List EdgeT := []
  edge_ids : List String := []
deriving Repr

/-- `SubstanceGraphData.add_edge`: dedup on `get_unique_id`, report whether the
edge was newly stored. -/
def addEdgeB (g : GraphData) (e : EdgeT) : GraphData × Bool :=
  let eid := e.uniqueId
  if g.edge_ids.contains eid then (g, false)
  else ({ g with edge_ids := g.edge_ids ++ [eid], edges := g.edges ++ [e] }, true)

/-- `add_edge` at the call sites that discard the returned flag. -/
def addEdge1 (g : GraphData) (e : EdgeT) : GraphData := (addEdgeB g e).1

end PharmaNel

namespace PharmaNel

/-! ## Raw source records (loosely-typed payload dicts, with the fields and
defaults the service reads via `.get`) -/

structure OpenFda where
  brand_name : List String := []
  generic_name : List String := []
  manufacturer_name : List String := []
  substance_name : List String := []
  route : List String := []
  dosage_form : List String := []
  pharm_class_epc : List String := []
  pharm_class_moa : List String := []
  product_ndc : List String := []
  rxcui : List String := []
  unii : List String := []
  spl_id : List String := []
deriving Repr

structure SubmissionRec where
  submission_type : String := ""
  submission_number : String := ""
  submission_status : String := ""
  submission_status_date : String := ""
  review_priority : String := ""
deriving Repr

structure ProductRec where
  product_number : String := ""
  brand_name : String := ""
  dosage_form : String := ""
  route : String := ""
  marketing_status : String := ""
deriving Repr

structure DrugsFdaRecord where
  openfda : OpenFda := {}
  application_number : String := ""
  sponsor_name : String := ""
  submissions : List SubmissionRec := []
  products : List ProductRec := []
deriving Repr

structure NdcPackaging where
  package_ndc : String := ""
  description : String := ""
deriving Repr

structure NdcRecord where
  product_ndc : String := ""
  brand_name : String := ""
  generic_name : String := ""
  spl_id : String := ""
  packaging : List NdcPackaging := []
deriving Repr

structure EventReaction where
  reactionmeddrapt : String := ""
  reactionmeddraversionpt : String := ""
  reactionoutcome : String := ""
deriving Repr

structure EventDrug where
  openfda : OpenFda := {}
  medicinalproduct : String := ""
  drugcharacterization : String := ""
deriving Repr

structure EventPatient where
  drug : List EventDrug := []
  reaction : List EventReaction := []
deriving Repr

structure EventRecord where
  patient : EventPatient := {}
deriving Repr

structure EnforcementRecord where
  openfda : OpenFda := {}
deriving Repr

structure RxIngredient where
  name : String := ""
  rxcui : Option String := none
deriving Repr

structure RxBrand where
  name : String := ""
  rxcui : String := ""
deriving Repr

structure RxConcept where
  rxcui : String := ""
  name : String := ""
deriving Repr

structure RxInteraction where
  description : String := ""
  severity : Option String := none
  minConceptItem : RxConcept := {}
deriving Repr

structure RxNormData where
  found : Bool := false
  rxcui : Option String := none
  name : String := ""
  ingredients : List RxIngredient := []
  brands : List RxBrand := []
  interactions : List RxInteraction := []
  ndc_codes : List String := []
deriving Repr

/-- `label_data` returned by `get_label_by_spl_id` (section fields are lists,
`get_text` reads the first element). -/
structure LabelData where
  set_id : String := ""
  version : String := ""
  effective_time : String := ""
  description : List String := []
  clinical_pharmacology : List String := []
  mechanism_of_action : List String := []
  indications_and_usage : List String := []
  dosage_and_administration : List String := []
  contraindications : List String := []
  warnings_and_cautions : List String := []
  warnings : List String := []
  boxed_warning : List String := []
  adverse_reactions : List String := []
  drug_interactions : List String := []
deriving Repr

/-- `ChemicalData` of the UNII/GSRS client (`unii_client.py`). -/
structure ChemicalData where
  unii : Option String := none
  substance_class : Option String := none
  formula : Option String := none
  molecular_weight : Option String := none
  smiles : Option String := none
  inchi : Option String := none
  inchi_key : Option String := none
  cas_number : Option String := none
  pubchem_id : Option String := none
  stereochemistry : Option String := none
deriving DecidableEq, Repr

/-! ## Service helpers (`substance_enrichment_service.py`) -/

/-- `xs[0] if xs else (ys[0] if ys else dflt)`. -/
def firstName (xs ys : List String) (dflt : String) : String :=
  match xs with
  | n :: _ => n
  | [] =>
      match ys with
      | n :: _ => n
      | [] => dflt

/-- `val[0] if val else None` (`get_text`). -/
def getText (l : List String) : Option String := l.head?

/-- Python `a or b` on two optional strings (`""` is falsy). -/
def pyOrOpt (a b : Option String) : Option String := if optTruthy a then a else b

/-- `[x] if x else []`. -/
def optToList (o : Option String) : List String := if optTruthy o then o.toList else []

/-- `_add_manufacturer`. -/
def addManufacturer (name : String) (drug_key : Option String) (g : GraphData) : GraphData :=
  let mfr_key := generate_key [name]
  let g :=
    match mfr_key with
    | some mk =>
        if alHas g.manufacturers mk then g
        else { g with manufacturers := alAdd g.manufacturers mk { key := mk, name := name } }
    | none => g
  match drug_key, mfr_key with
  | some dk, some mk => addEdge1 g ⟨"drugs", dk, "manufacturers", mk, "drug_by_manufacturer", []⟩
  | _, _ => g

/-- `_add_substance`. -/
def addSubstance (name : String) (unii rxcui : Option String) (drug_key : Option String)
    (g : GraphData) : GraphData :=
  match generate_key [name] with
  | none => g
  | some sub_key =>
      let g :=
        if alHas g.substances sub_key then
          { g with substances := alSet g.substances sub_key (fun ex =>
              let ex := if optTruthy unii && !(optTruthy ex.unii) then { ex with unii := unii } else ex
              if optTruthy rxcui && !(optTruthy ex.rxcui) then { ex with rxcui := rxcui } else ex) }
        else
          let entry : Substance := { key := sub_key, name := name, unii := unii, rxcui := rxcui }
          { g with substances := alAdd g.substances sub_key entry }
      match drug_key with
      | some dk => addEdge1 g ⟨"drugs", dk, "substances", sub_key, "drug_has_substance", []⟩
      | none => g

/-- `_add_route`. -/
def addRoute (name : String) (drug_key : Option String) (g : GraphData) : GraphData :=
  let route_key := generate_key [name]
  let g :=
    match route_key with
    | some rk =>
        if alHas g.routes rk then g
        else { g with routes := alAdd g.routes rk { key := rk, name := name } }
    | none => g
  match drug_key, route_key with
  | some dk, some rk => addEdge1 g ⟨"drugs", dk, "routes", rk, "drug_has_route", []⟩
  | _, _ => g

/-- `_add_dosage_form`. -/
def addDosageForm (name : String) (drug_key : Option String) (g : GraphData) : GraphData :=
  let form_key := generate_key [name]
  let g :=
    match form_key with
    | some fk =>
        if alHas g.dosage_forms fk then g
        else { g with dosage_forms := alAdd g.dosage_forms fk { key := fk, name := name } }
    | none => g
  match drug_key, form_key with
  | some dk, some fk => addEdge1 g ⟨"drugs", dk, "dosage_forms", fk, "drug_has_form", []⟩
  | _, _ => g

/-- `_add_pharm_class`. -/
def addPharmClass (name class_type : String) (drug_key : Option String) (g : GraphData) :
    GraphData :=
  let class_key := generate_key [name]
  let g :=
    match class_key with
    | some ck =>
        if alHas g.pharm_classes ck then g
        else
          let entry : PharmClass := { key := ck, name := name, class_type := class_type }
          { g with pharm_classes := alAdd g.pharm_classes ck entry }
    | none => g
  match drug_key, class_key with
  | some dk, some ck => addEdge1 g ⟨"drugs", dk, "pharm_classes", ck, "drug_in_class", []⟩
  | _, _ => g

/-- `_process_submission`. -/
def processSubmission (app_num : String) (drug_key : Option String) (g : GraphData)
    (s : SubmissionRec) : GraphData :=
  match generate_key [app_num, s.submission_type, s.submission_number] with
  | none => g
  | some ak =>
      if alHas g.applications ak then g
      else
        let entry : FDAApplication :=
          { key := ak
            application_number := app_num
            submission_type := some s.submission_type
            submission_number := some s.submission_number
            submission_status := some s.submission_status
            submission_status_date := some s.submission_status_date
            review_priority := some s.review_priority }
        let g := { g with applications := alAdd g.applications ak entry }
        match drug_key with
        | some dk => addEdge1 g ⟨"applications", ak, "drugs", dk, "application_for_drug",
            [("type", s.submission_type), ("status", s.submission_status)]⟩
        | none => g

/-- `_process_product`. -/
def processFdaProduct (app_num : String) (drug_key : Option String) (g : GraphData)
    (p : ProductRec) : GraphData :=
  match generate_key [app_num, p.product_number] with
  | none => g
  | some pk =>
      if alHas g.products pk then g
      else
        let entry : Product :=
          { key := pk
            product_number := some p.product_number
            brand_name := some p.brand_name
            dosage_form := some p.dosage_form
            route := some p.route
            marketing_status := some p.marketing_status }
        let g := { g with products := alAdd g.products pk entry }
        match drug_key with
        | some dk => addEdge1 g ⟨"products", pk, "drugs", dk, "product_of_drug", []⟩
        | none => g

end PharmaNel

namespace PharmaNel

/-! ## `_process_drugsfda_data` -/

/-- One iteration of the `_process_drugsfda_data` record loop. -/
def processDrugsFdaRecord (now : String) (g : GraphData) (record : DrugsFdaRecord) : GraphData :=
  let o := record.openfda
  let application_number := record.application_number
  let drug_key := generate_key [pyOrS application_number (o.brand_name.headD "")]
  let g :=
    match drug_key with
    | some dk =>
        if alHas g.drugs dk then g
        else
          let entry : Drug :=
            { key := dk
              application_number := some application_number
              brand_names := o.brand_name
              generic_names := o.generic_name
              ndc_codes := o.product_ndc
              rxcui := o.rxcui
              spl_id := o.spl_id
              sponsor_name := some record.sponsor_name
              drug_type := some (if application_number ≠ "" then pyTake application_number 3
                                 else "UNKNOWN")
              source := "drugsfda"
              is_enriched := true
              enriched_at := some now }
          { g with drugs := alAdd g.drugs dk entry }
    | none => g
  let g := record.submissions.foldl (processSubmission application_number drug_key) g
  let g := o.manufacturer_name.foldl (fun g m => addManufacturer m drug_key g) g
  let g := o.substance_name.enum.foldl
      (fun g p => addSubstance p.2 (o.unii.get? p.1) none drug_key g) g
  let g := o.route.foldl (fun g r => addRoute r drug_key g) g
  let g := o.dosage_form.foldl (fun g f => addDosageForm f drug_key g) g
  let g := o.pharm_class_epc.foldl (fun g pc => addPharmClass pc "EPC" drug_key g) g
  let g := o.pharm_class_moa.foldl (fun g pc => addPharmClass pc "MOA" drug_key g) g
  record.products.foldl (processFdaProduct application_number drug_key) g

def processDrugsFdaData (records : List DrugsFdaRecord) (g : GraphData) (now : String) :
    GraphData :=
  records.foldl (processDrugsFdaRecord now) g

/-! ## `_process_ndc_data` -/

/-- One iteration of the packaging loop of `_process_ndc_data`. -/
def processNdcPkg (drug_key : Option String) (g : GraphData) (pkg : NdcPackaging) : GraphData :=
  match generate_key [pkg.package_ndc] with
  | none => g
  | some pk =>
      if alHas g.products pk then g
      else
        let entry : Product :=
          { key := pk, package_ndc := some pkg.package_ndc, description := some pkg.description }
        let g := { g with products := alAdd g.products pk entry }
        match drug_key with
        | some dk => addEdge1 g ⟨"products", pk, "drugs", dk, "product_of_drug", []⟩
        | none => g

/-- One iteration of the `_process_ndc_data` record loop; threads the
`drug_key -> spl_id` map alongside the accumulator. -/
def processNdcRecord (search_lower now : String) (st : GraphData × List (String × String))
    (record : NdcRecord) : GraphData × List (String × String) :=
  let (g, spl_map) := st
  if record.product_ndc = "" then (g, spl_map)
  else
    let brand_name := record.brand_name
    let generic_name := record.generic_name
    let spl_id := record.spl_id
    let is_exact := (pyLower brand_name == search_lower) || (pyLower generic_name == search_lower)
    let drug_key := generate_key [record.product_ndc]
    let gm :=
      match drug_key with
      | none => (g, spl_map)
      | some dk =>
          if alHas g.drugs dk then (g, spl_map)
          else
            let entry : Drug :=
              { key := dk
                brand_names := if brand_name = "" then [] else [brand_name]
                generic_names := if generic_name = "" then [] else [generic_name]
                ndc_codes := [record.product_ndc]
                spl_id := if spl_id = "" then [] else [spl_id]
                source := "ndc"
                is_enriched := is_exact
                enriched_at := if is_exact then some now else none }
            let g := { g with drugs := alAdd g.drugs dk entry }
            let spl_map := if spl_id ≠ "" ∧ is_exact then alPut spl_map dk spl_id else spl_map
            (g, spl_map)
    (record.packaging.foldl (processNdcPkg drug_key) gm.1, gm.2)

def processNdcData (records : List NdcRecord) (g : GraphData) (search_term now : String) :
    GraphData × List (String × String) :=
  records.foldl (processNdcRecord (pyLower search_term) now) (g, [])

/-! ## `_process_enforcement_data` -/

def processEnforcementRecord (g : GraphData) (record : EnforcementRecord) : GraphData :=
  let o := record.openfda
  let drug_name := firstName o.brand_name o.generic_name ""
  if drug_name = "" then g
  else
    let drug_key := generate_key [drug_name]
    let g :=
      match drug_key with
      | some dk =>
          if alHas g.drugs dk then g
          else
            let entry : Drug :=
              { key := dk, brand_names := o.brand_name, generic_names := o.generic_name,
                rxcui := o.rxcui, source := "enforcement" }
            { g with drugs := alAdd g.drugs dk entry }
      | none => g
    let g := o.manufacturer_name.foldl (fun g m => addManufacturer m drug_key g) g
    let g := o.substance_name.enum.foldl
        (fun g p => addSubstance p.2 (o.unii.get? p.1) none drug_key g) g
    o.route.foldl (fun g r => addRoute r drug_key g) g

def processEnforcementData (records : List EnforcementRecord) (g : GraphData) : GraphData :=
  records.foldl processEnforcementRecord g

/-! ## `_process_event_data` -/

def processEventReaction (drug_key : Option String) (characterization : String) (g : GraphData)
    (r : EventReaction) : GraphData :=
  if r.reactionmeddrapt = "" then g
  else
    let reaction_key := generate_key [r.reactionmeddrapt]
    let g :=
      match reaction_key with
      | some rk =>
          if alHas g.reactions rk then g
          else
            let entry : Reaction :=
              { key := rk, name := r.reactionmeddrapt,
                meddra_version := some r.reactionmeddraversionpt }
            { g with reactions := alAdd g.reactions rk entry }
      | none => g
    match drug_key, reaction_key with
    | some dk, some rk => addEdge1 g ⟨"drugs", dk, "reactions", rk, "drug_causes_reaction",
        [("outcome", r.reactionoutcome), ("drug_characterization", characterization)]⟩
    | _, _ => g

/-- One iteration of the per-patient drug loop of `_process_event_data`
(the patient's reaction list is re-processed for each drug, as in the source). -/
def processEventDrug (reactions : List EventReaction) (g : GraphData) (d : EventDrug) :
    GraphData :=
  let o := d.openfda
  let drug_name := firstName o.brand_name o.generic_name d.medicinalproduct
  if drug_name = "" then g
  else
    let drug_key := generate_key [drug_name]
    let g :=
      match drug_key with
      | some dk =>
          if alHas g.drugs dk then g
          else
            let entry : Drug :=
              { key := dk, brand_names := o.brand_name, generic_names := o.generic_name,
                rxcui := o.rxcui, source := "adverse_event" }
            { g with drugs := alAdd g.drugs dk entry }
      | none => g
    let g := o.substance_name.enum.foldl
        (fun g p => addSubstance p.2 (o.unii.get? p.1) none drug_key g) g
    let g := o.route.foldl (fun g r => addRoute r drug_key g) g
    reactions.foldl (processEventReaction drug_key d.drugcharacterization) g

def processEventRecord (g : GraphData) (record : EventRecord) : GraphData :=
  record.patient.drug.foldl (processEventDrug record.patient.reaction) g

def processEventData (records : List EventRecord) (g : GraphData) : GraphData :=
  records.foldl processEventRecord g

end PharmaNel

namespace PharmaNel

/-! ## `_process_rxnorm_data` and interactions -/

/-- `_find_main_drug_key`: prefer a drug carrying the concept code, else
resolve/create by name, else fall back to the first drug key. -/
def findMainDrugKey (rd : RxNormData) (g : GraphData) : GraphData × Option String :=
  let matched :=
    if optTruthy rd.rxcui then
      match rd.rxcui with
      | some rx => (g.drugs.find? (fun p => p.2.rxcui.contains rx)).map (·.1)
      | none => none
    else none
  match matched with
  | some k => (g, some k)
  | none =>
      if rd.name ≠ "" then
        match generate_key [rd.name] with
        | some dk =>
            if alHas g.drugs dk then (g, some dk)
            else
              let entry : Drug := { key := dk, rxcui := optToList rd.rxcui, source := "rxnorm" }
              ({ g with drugs := alAdd g.drugs dk entry }, some dk)
        | none => (g, none)
      else
        (g, (g.drugs.head?).map (·.1))

/-- One iteration of the `_process_interactions` loop. -/
def processInteraction (source_drug_key : Option String) (source_rxcui : Option String)
    (source_name : String) (g : GraphData) (i : RxInteraction) : GraphData :=
  if i.description = "" then g
  else
    let severity := i.severity.getD "N/A"
    let target_rxcui := i.minConceptItem.rxcui
    let target_name := i.minConceptItem.name
    match generate_key [pyOrOS source_rxcui source_name, pyOrS target_rxcui target_name,
        "interaction"] with
    | none => g
    | some ik =>
        let g :=
          if alHas g.interactions ik then g
          else
            let entry : Interaction :=
              { key := ik
                severity := some severity
                description := some i.description
                source_drug_rxcui := source_rxcui
                source_drug_name := some source_name
                target_drug_rxcui := some target_rxcui
                target_drug_name := some target_name
                source_api := "rxnorm" }
            { g with interactions := alAdd g.interactions ik entry }
        let g :=
          match source_drug_key with
          | some sk => addEdge1 g ⟨"drugs", sk, "interactions", ik, "drug_interacts_with",
              [("severity", severity), ("role", "source")]⟩
          | none => g
        if target_name = "" then g
        else
          match generate_key [target_name] with
          | none => g
          | some tk =>
              let g :=
                if alHas g.drugs tk then g
                else
                  let entry : Drug :=
                    { key := tk
                      rxcui := if target_rxcui = "" then [] else [target_rxcui]
                      source := "rxnorm_interaction" }
                  { g with drugs := alAdd g.drugs tk entry }
              addEdge1 g ⟨"drugs", tk, "interactions", ik, "drug_interacts_with",
                  [("severity", severity), ("role", "target")]⟩

def processInteractions (interactions : List RxInteraction) (source_drug_key : Option String)
    (source_rxcui : Option String) (source_name : String) (g : GraphData) : GraphData :=
  interactions.foldl (processInteraction source_drug_key source_rxcui source_name) g

/-- `_process_rxnorm_data`. The order of `list(set(...))` for the ndc-code
union is unspecified in Python; the model fixes one duplicate-free enumeration
of the same set (`List.dedup`). -/
def processRxnormData (rd : RxNormData) (g : GraphData) (include_interactions : Bool) :
    GraphData :=
  if ¬ rd.found then g
  else
    let source_rxcui := rd.rxcui
    let source_name := rd.name
    let gm := findMainDrugKey rd g
    let g := gm.1
    let main_drug_key := gm.2
    let g := rd.ingredients.foldl (fun g ing =>
        if ing.name ≠ "" then addSubstance ing.name none ing.rxcui main_drug_key g else g) g
    let g := rd.brands.foldl (fun g b =>
        if b.name = "" then g
        else
          match generate_key [b.name] with
          | some dk =>
              if alHas g.drugs dk then g
              else
                let entry : Drug :=
                  { key := dk, brand_names := [b.name], rxcui := [b.rxcui], source := "rxnorm" }
                { g with drugs := alAdd g.drugs dk entry }
          | none => g) g
    let g :=
      if include_interactions then
        processInteractions rd.interactions main_drug_key source_rxcui source_name g
      else g
    if rd.ndc_codes ≠ [] then
      match main_drug_key with
      | some mk =>
          if alHas g.drugs mk then
            { g with drugs := alSet g.drugs mk (fun d =>
                { d with ndc_codes := (d.ndc_codes ++ rd.ndc_codes).dedup }) }
          else g
      | none => g
    else g

/-! ## `_fetch_labels_by_spl_id` -/

/-- `_fetch_labels_by_spl_id`, with the per-`spl_id` client results given by
`labelLookup` (`none` covers both an exception and an empty payload). -/
def fetchLabelsBySplId (labelLookup : String → Option LabelData)
    (drug_spl_map : List (String × String)) (g : GraphData) : GraphData :=
  if drug_spl_map = [] then g
  else
    drug_spl_map.foldl (fun g p =>
      match labelLookup p.2 with
      | none => g
      | some ld =>
          match generate_key [p.2] with
          | none => g
          | some label_key =>
              if alHas g.drug_labels label_key then g
              else
                let entry : DrugLabel :=
                  { key := label_key
                    spl_id := some p.2
                    set_id := some ld.set_id
                    version := some ld.version
                    effective_time := some ld.effective_time
                    description := getText ld.description
                    clinical_pharmacology := getText ld.clinical_pharmacology
                    mechanism_of_action := getText ld.mechanism_of_action
                    indications_and_usage := getText ld.indications_and_usage
                    dosage_and_administration := getText ld.dosage_and_administration
                    contraindications := getText ld.contraindications
                    warnings_and_cautions := pyOrOpt (getText ld.warnings_and_cautions)
                                                     (getText ld.warnings)
                    boxed_warning := getText ld.boxed_warning
                    adverse_reactions := getText ld.adverse_reactions
                    drug_interactions := getText ld.drug_interactions }
                let g := { g with drug_labels := alAdd g.drug_labels label_key entry }
                addEdge1 g ⟨"drugs", p.1, "drug_labels", label_key, "drug_has_label", []⟩) g

/-! ## `_enrich_substances_with_chemical_data` -/

/-- `chemical_data.get(sub.unii) or chemical_data.get(sub.name)`. -/
def resolveChem (chemLookup : String → Option ChemicalData) (sub : Substance) :
    Option ChemicalData :=
  let first :=
    match sub.unii with
    | some u => chemLookup u
    | none => none
  match first with
  | some c => some c
  | none => chemLookup sub.name

/-- The per-substance body of the enrichment loop: UNII is filled only if
absent, every other chemical field is assigned from the resolved record. -/
def enrichSubstance (chemLookup : String → Option ChemicalData) (now : String)
    (sub : Substance) : Substance :=
  match resolveChem chemLookup sub with
  | none => sub
  | some chem =>
      let sub :=
        if optTruthy chem.unii && !(optTruthy sub.unii) then { sub with unii := chem.unii }
        else sub
      { sub with
        formula := chem.formula
        molecular_weight := chem.molecular_weight
        smiles := chem.smiles
        inchi := chem.inchi
        inchi_key := chem.inchi_key
        cas_number := chem.cas_number
        pubchem_id := chem.pubchem_id
        substance_class := chem.substance_class
        stereochemistry := chem.stereochemistry
        is_enriched := true
        enriched_at := some now }

def enrichSubstances (chemLookup : String → Option ChemicalData) (g : GraphData)
    (now : String) : GraphData :=
  if g.substances = [] then g
  else { g with substances := g.substances.map (fun p => (p.1, enrichSubstance chemLookup now p.2)) }

/-! ## `_ensure_main_substance` -/

/-- `search_term.lower().replace(" ", "_").replace("-", "_")`. -/
def mainSubstanceKey (search_term : String) : String :=
  String.mk ((pyLower search_term).data.map (fun c => if c = ' ' ∨ c = '-' then '_' else c))

def ensureMainSubstance (search_term : String) (g : GraphData) (now : String) : GraphData :=
  let substance_key := mainSubstanceKey search_term
  if alHas g.substances substance_key then g
  else if g.substances.any (fun p => pyLower p.2.name == pyLower search_term) then g
  else
    let entry : Substance :=
      { key := substance_key, name := pyUpper search_term, is_enriched := true,
        enriched_at := some now }
    let g := { g with substances := alAdd g.substances substance_key entry }
    g.drugs.foldl (fun g p =>
      addEdge1 g ⟨"drugs", p.1, "substances", substance_key, "drug_has_substance", []⟩) g

/-! ## `get_substance_data` -/

/-- The FDA client's `get_all_drug_data` payload. -/
structure FdaData where
  drugsfda : List DrugsFdaRecord := []
  ndc : List NdcRecord := []
  enforcement : List EnforcementRecord := []
  events : List EventRecord := []
deriving Repr

/-- `get_substance_data`, with the responses of the three external clients as
parameters (`rd` is whatever the nomenclature client returned, subsuming the
`rxcui_hint` optimisation; `labelLookup` and `chemLookup` give the per-key
results of the label and chemical clients; `now` stands for the wall clock). -/
def getSubstanceData (substance_name : String) (include_events include_interactions : Bool)
    (fdaData : FdaData) (rd : RxNormData) (labelLookup : String → Option LabelData)
    (chemLookup : String → Option ChemicalData) (now : String) : GraphData :=
  let g : GraphData := { search_term := substance_name }
  let gm := processNdcData fdaData.ndc g substance_name now
  let g := gm.1
  let drug_spl_map := gm.2
  let g := processDrugsFdaData fdaData.drugsfda g now
  let g := processEnforcementData fdaData.enforcement g
  let g := if include_events then processEventData fdaData.events g else g
  let g := processRxnormData rd g include_interactions
  let g := fetchLabelsBySplId labelLookup drug_spl_map g
  let g := enrichSubstances chemLookup g now
  let g := { g with found := decide (0 < g.drugs.length) || decide (0 < g.substances.length) }
  if g.found then ensureMainSubstance substance_name g now else g

end PharmaNel

namespace PharmaNel

/-! ## Persistence (`openfda_graph_repository.py`)

The store is a list of collections (name → documents in insertion order).
A document is its `_key` (the empty string models a falsy/absent `_key`)
plus an opaque field map. `collection.insert` outcomes are supplied by a
`behavior` oracle so that the duplicate-key race handling of `_safe_insert`
can be exercised; the race-free sequential store always answers `.ok`. -/

structure Doc where
  docKey : String
  payload : List (String × String) := []
deriving DecidableEq, Repr

abbrev Store : Type := List (String × List Doc)

/-- Documents of a collection (missing collection reads as empty). -/
def colDocs (s : Store) (n : String) : List Doc := (alGet s n).getD []

/-- The `_key` column of a collection. -/
def storeKeys (s : Store) (n : String) : List String := (colDocs s n).map (·.docKey)

/-- `_ensure_vertex_collection` / `_ensure_edge_collection`: create lazily. -/
def ensureCollection (s : Store) (n : String) : Store :=
  if alHas s n then s else s ++ [(n, [])]

/-- `collection.has(key)`. -/
def colHas (s : Store) (n k : String) : Bool := (colDocs s n).any (fun d => d.docKey == k)

/-- ArangoDB `update`: merge the given fields into the stored document. -/
def mergePayload (old new : List (String × String)) : List (String × String) :=
  old.filter (fun p => ¬ (new.map (·.1)).contains p.1) ++ new

def colUpdate (s : Store) (n : String) (d : Doc) : Store :=
  alSet s n (fun docs => docs.map (fun d0 =>
    if d0.docKey == d.docKey then { d0 with payload := mergePayload d0.payload d.payload }
    else d0))

def colInsert (s : Store) (n : String) (d : Doc) : Store :=
  if alHas s n then alSet s n (fun docs => docs ++ [d]) else s ++ [(n, [d])]

/-- Outcome of a raw `collection.insert` call. -/
inductive InsertRes where
  | ok
  | docInsertErr (msg : String)
  | otherExc (msg : String)

/-- `"unique constraint violated" in str(e)`. -/
def containsUCV (msg : String) : Bool :=
  decide ("unique constraint violated".data <:+: msg.data)

/-- `_safe_insert`, as a function of the raw insert outcome: a
`DocumentInsertError` whose text mentions the unique-constraint violation is a
benign skip (`false`); any other failure propagates. -/
def safeInsertRes (res : InsertRes) : Except String Bool :=
  match res with
  | .ok => .ok true
  | .docInsertErr msg => if containsUCV msg then .ok false else .error msg
  | .otherExc msg => .error msg

/-- The race-free store: every attempted insert succeeds. -/
def okBehavior : String → Doc → InsertRes := fun _ _ => .ok

/-- The per-document loop of `_persist_vertices` (update if present, else
guarded insert; the count is incremented for every truthy-keyed document). -/
def persistVerticesLoop (behavior : String → Doc → InsertRes) (name : String) :
    Store → Nat → List Doc → Except String (Store × Nat)
  | store, count, [] => .ok (store, count)
  | store, count, doc :: rest =>
      if doc.docKey ≠ "" then
        if colHas store name doc.docKey then
          persistVerticesLoop behavior name (colUpdate store name doc) (count + 1) rest
        else
          match safeInsertRes (behavior name doc) with
          | .error m => .error m
          | .ok true => persistVerticesLoop behavior name (colInsert store name doc) (count + 1) rest
          | .ok false => persistVerticesLoop behavior name store (count + 1) rest
      else persistVerticesLoop behavior name store count rest

/-- `_persist_vertices`. -/
def persistVertices (behavior : String → Doc → InsertRes) (store : Store) (name : String)
    (docs : List Doc) : Except String (Store × Nat) :=
  if docs = [] then .ok (store, 0)
  else persistVerticesLoop behavior name (ensureCollection store name) 0 docs

/-- The per-document loop of `_persist_edges` within one edge collection
(insert-once; the count is incremented only for an actual insert). -/
def persistEdgesLoop (behavior : String → Doc → InsertRes) (name : String) :
    Store → Nat → List Doc → Except String (Store × Nat)
  | store, count, [] => .ok (store, count)
  | store, count, doc :: rest =>
      if doc.docKey ≠ "" then
        if colHas store name doc.docKey then persistEdgesLoop behavior name store count rest
        else
          match safeInsertRes (behavior name doc) with
          | .error m => .error m
          | .ok true => persistEdgesLoop behavior name (colInsert store name doc) (count + 1) rest
          | .ok false => persistEdgesLoop behavior name store count rest
      else persistEdgesLoop behavior name store count rest

/-- `Edge.to_dict`. -/
def edgeToDoc (e : EdgeT) : Doc :=
  { docKey := e.storeKey
    payload := [("_from", e.from_collection ++ "/" ++ e.from_key),
                ("_to", e.to_collection ++ "/" ++ e.to_key)] ++ e.properties }

/-- Group edge documents by their edge collection, in first-seen order. -/
def groupEdges (edges : List EdgeT) : List (String × List Doc) :=
  edges.foldl (fun acc e =>
    if alHas acc e.edge_collection then
      alSet acc e.edge_collection (fun l => l ++ [edgeToDoc e])
    else acc ++ [(e.edge_collection, [edgeToDoc e])]) []

/-- `_persist_edges`. -/
def persistEdges (behavior : String → Doc → InsertRes) (store : Store) (edges : List EdgeT) :
    Except String (Store × Nat) :=
  if edges = [] then .ok (store, 0)
  else
    (groupEdges edges).foldlM (fun (acc : Store × Nat) pair => do
      let store := ensureCollection acc.1 pair.1
      persistEdgesLoop behavior pair.1 store acc.2 pair.2) (store, 0)

/-! ### Entity `to_dict` serialisations.

List- and bool-valued fields are rendered opaquely to strings; only the
`_key` column is load-bearing for the persistence claims.  `created_at or
now` / `updated_at = now` follow the dataclasses. -/

def optStr (o : Option String) : String := o.getD ""

def listStr (l : List String) : String := String.intercalate "," l

def boolStr (b : Bool) : String := if b then "True" else "False"

def drugToDict (now : String) (d : Drug) : Doc :=
  { docKey := d.key
    payload := [("application_number", optStr d.application_number),
      ("brand_names", listStr d.brand_names), ("generic_names", listStr d.generic_names),
      ("ndc_codes", listStr d.ndc_codes), ("rxcui", listStr d.rxcui),
      ("spl_id", listStr d.spl_id), ("sponsor_name", optStr d.sponsor_name),
      ("type", optStr d.drug_type), ("source", d.source),
      ("is_enriched", boolStr d.is_enriched), ("is_alias", boolStr d.is_alias),
      ("enriched_at", optStr d.enriched_at), ("created_at", pyOrOS d.created_at now),
      ("updated_at", now)] }

def substanceToDict (now : String) (s : Substance) : Doc :=
  { docKey := s.key
    payload := [("name", s.name), ("unii", optStr s.unii), ("rxcui", optStr s.rxcui),
      ("formula", optStr s.formula), ("molecular_weight", optStr s.molecular_weight),
      ("smiles", optStr s.smiles), ("inchi", optStr s.inchi),
      ("inchi_key", optStr s.inchi_key), ("cas_number", optStr s.cas_number),
      ("pubchem_id", optStr s.pubchem_id), ("substance_class", optStr s.substance_class),
      ("stereochemistry", optStr s.stereochemistry), ("is_enriched", boolStr s.is_enriched),
      ("enriched_at", optStr s.enriched_at), ("created_at", pyOrOS s.created_at now),
      ("updated_at", now)] }

/-- Modelled from the spec: `manufacturer.py` is absent from `src/`; its
`to_dict` follows the uniform pattern of the sibling entity files. -/
def manufacturerToDict (now : String) (m : Manufacturer) : Doc :=
  { docKey := m.key
    payload := [("name", m.name), ("created_at", pyOrOS m.created_at now),
      ("updated_at", now)] }

/-- Modelled from the spec: `route.py` is absent from `src/`. -/
def routeToDict (now : String) (r : RouteE) : Doc :=
  { docKey := r.key
    payload := [("name", r.name), ("created_at", pyOrOS r.created_at now),
      ("updated_at", now)] }

def dosageFormToDict (now : String) (f : DosageForm) : Doc :=
  { docKey := f.key
    payload := [("name", f.name), ("created_at", pyOrOS f.created_at now),
      ("updated_at", now)] }

/-- Modelled from the spec: `pharm_class.py` is absent from `src/`. -/
def pharmClassToDict (now : String) (c : PharmClass) : Doc :=
  { docKey := c.key
    payload := [("name", c.name), ("class_type", c.class_type),
      ("created_at", pyOrOS c.created_at now), ("updated_at", now)] }

def reactionToDict (now : String) (r : Reaction) : Doc :=
  { docKey := r.key
    payload := [("name", r.name), ("meddra_version", optStr r.meddra_version),
      ("created_at", pyOrOS r.created_at now), ("updated_at", now)] }

def applicationToDict (now : String) (a : FDAApplication) : Doc :=
  { docKey := a.key
    payload := [("application_number", a.application_number),
      ("submission_type", optStr a.submission_type),
      ("submission_number", optStr a.submission_number),
      ("submission_status", optStr a.submission_status),
      ("submission_status_date", optStr a.submission_status_date),
      ("review_priority", optStr a.review_priority),
      ("created_at", pyOrOS a.created_at now), ("updated_at", now)] }

def productToDict (now : String) (p : Product) : Doc :=
  { docKey := p.key
    payload := [("product_number", optStr p.product_number),
      ("package_ndc", optStr p.package_ndc), ("brand_name", optStr p.brand_name),
      ("dosage_form", optStr p.dosage_form), ("route", optStr p.route),
      ("marketing_status", optStr p.marketing_status), ("description", optStr p.description),
      ("created_at", pyOrOS p.created_at now), ("updated_at", now)] }

def interactionToDict (now : String) (i : Interaction) : Doc :=
  { docKey := i.key
    payload := [("severity", optStr i.severity), ("description", optStr i.description),
      ("source_drug_rxcui", optStr i.source_drug_rxcui),
      ("source_drug_name", optStr i.source_drug_name),
      ("target_drug_rxcui", optStr i.target_drug_rxcui),
      ("target_drug_name", optStr i.target_drug_name), ("source_api", i.source_api),
      ("created_at", pyOrOS i.created_at now), ("updated_at", now)] }

def drugLabelToDict (now : String) (l : DrugLabel) : Doc :=
  { docKey := l.key
    payload := [("spl_id", optStr l.spl_id), ("set_id", optStr l.set_id),
      ("version", optStr l.version), ("effective_time", optStr l.effective_time),
      ("description", optStr l.description),
      ("clinical_pharmacology", optStr l.clinical_pharmacology),
      ("mechanism_of_action", optStr l.mechanism_of_action),
      ("indications_and_usage", optStr l.indications_and_usage),
      ("dosage_and_administration", optStr l.dosage_and_administration),
      ("contraindications", optStr l.contraindications),
      ("warnings_and_cautions", optStr l.warnings_and_cautions),
      ("boxed_warning", optStr l.boxed_warning),
      ("adverse_reactions", optStr l.adverse_reactions),
      ("drug_interactions", optStr l.drug_interactions),
      ("created_at", pyOrOS l.created_at now), ("updated_at", now)] }

/-- `persist_graph_data` (`ensure_graph` is the external idempotent schema
bootstrap of the spec's store contract; it creates no documents and is the
identity here). -/
def persistGraphData (behavior : String → Doc → InsertRes) (store : Store) (data : GraphData)
    (now : String) : Except String (Store × List (String × Nat)) := do
  let (store, n1) ← persistVertices behavior store "drugs"
      (data.drugs.map (fun p => drugToDict now p.2))
  let (store, n2) ← persistVertices behavior store "substances"
      (data.substances.map (fun p => substanceToDict now p.2))
  let (store, n3) ← persistVertices behavior store "manufacturers"
      (data.manufacturers.map (fun p => manufacturerToDict now p.2))
  let (store, n4) ← persistVertices behavior store "routes"
      (data.routes.map (fun p => routeToDict now p.2))
  let (store, n5) ← persistVertices behavior store "dosage_forms"
      (data.dosage_forms.map (fun p => dosageFormToDict now p.2))
  let (store, n6) ← persistVertices behavior store "pharm_classes"
      (data.pharm_classes.map (fun p => pharmClassToDict now p.2))
  let (store, n7) ← persistVertices behavior store "reactions"
      (data.reactions.map (fun p => reactionToDict now p.2))
  let (store, n8) ← persistVertices behavior store "applications"
      (data.applications.map (fun p => applicationToDict now p.2))
  let (store, n9) ← persistVertices behavior store "products"
      (data.products.map (fun p => productToDict now p.2))
  let (store, n10) ← persistVertices behavior store "interactions"
      (data.interactions.map (fun p => interactionToDict now p.2))
  let (store, n11) ← persistVertices behavior store "drug_labels"
      (data.drug_labels.map (fun p => drugLabelToDict now p.2))
  let (store, ne) ← persistEdges behavior store data.edges
  return (store, [("drugs", n1), ("substances", n2), ("manufacturers", n3), ("routes", n4),
    ("dosage_forms", n5), ("pharm_classes", n6), ("reactions", n7), ("applications", n8),
    ("products", n9), ("interactions", n10), ("drug_labels", n11), ("edges", ne)])

end PharmaNel

namespace PharmaNel

/-! ## Basic lemmas about the association-list dictionary model -/

theorem alGet_of_isSome_append {α : Type} (m l : List (String × α)) (k : String)
    (h : (alGet m k).isSome) : alGet (m ++ l) k = alGet m k := by
  simp only [alGet, List.find?_append]
  rcases hf : List.find? (fun p => p.1 == k) m with _ | x
  · simp [alGet, hf] at h
  · rw [hf]; rfl

theorem alGet_alAdd_of_not_has {α : Type} (m : List (String × α)) (k : String) (v : α)
    (h : alHas m k = false) : alGet (alAdd m k v) k = some v := by
  have hn : alGet m k = none := by
    cases hg : alGet m k
    · rfl
    · rw [alHas, hg] at h; simp at h
  unfold alGet at hn ⊢
  rw [alAdd, List.find?_append]
  cases hf : List.find? (fun p => p.1 == k) m
  · simp [Option.or, List.find?]
  · rw [hf] at hn; simp at hn

theorem alGet_alSet {α : Type} (m : List (String × α)) (k k' : String) (f : α → α) :
    alGet (alSet m k f) k' = if k' = k then (alGet m k').map f else alGet m k' := by
  induction m with
  | nil => simp [alGet, alSet]
  | cons p rest ih =>
      simp only [alSet] at ih ⊢
      by_cases h1 : p.1 = k'
      · by_cases h2 : k' = k
        · subst h2; simp [alGet, List.find?_cons, h1]
        · have : ¬ (p.1 == k) = true := by simp [h1, h2]
          simp [alGet, List.find?_cons, h1, h2, this]
      · by_cases h2 : p.1 = k
        · simpa [alGet, List.find?_cons, h2, h1, show ¬ (k == k') = true by
            simp; rintro rfl; exact h1 h2] using ih
        · simpa [alGet, List.find?_cons, h1, h2] using ih

theorem alHas_iff_mem {α : Type} (m : List (String × α)) (k : String) :
    alHas m k = true ↔ k ∈ m.map (·.1) := by
  induction m with
  | nil => simp [alHas, alGet]
  | cons p rest ih =>
      by_cases h : p.1 = k
      · simp [alHas, alGet, List.find?_cons, h]
      · simp [alHas, alGet, List.find?_cons, h, Ne.symm h, ih]

/-! ## C4 — `add_edge` dedup -/

/-- The dedup invariant the accumulator maintains: the id set mirrors the
stored edge list. -/
def EdgeIdsInv (g : GraphData) : Prop :=
  g.edge_ids = g.edges.map EdgeT.uniqueId ∧ g.edge_ids.Nodup

theorem addEdgeB_of_mem (g : GraphData) (e : EdgeT) (h : e.uniqueId ∈ g.edge_ids) :
    addEdgeB g e = (g, false) := by
  simp [addEdgeB, h]

theorem addEdgeB_of_not_mem (g : GraphData) (e : EdgeT) (h : e.uniqueId ∉ g.edge_ids) :
    addEdgeB g e =
      ({ g with edge_ids := g.edge_ids ++ [e.uniqueId], edges := g.edges ++ [e] }, true) := by
  simp [addEdgeB, h]

theorem addEdge1_edgeIdsInv (g : GraphData) (e : EdgeT) (h : EdgeIdsInv g) :
    EdgeIdsInv (addEdge1 g e) := by
  obtain ⟨h1, h2⟩ := h
  by_cases hm : e.uniqueId ∈ g.edge_ids
  · simp [addEdge1, addEdgeB_of_mem g e hm]; exact ⟨h1, h2⟩
  · simp only [addEdge1, addEdgeB_of_not_mem g e hm]
    constructor
    · simp [h1]
    · simp [List.nodup_append, h2, hm]

theorem foldl_addEdge1_edgeIdsInv (es : List EdgeT) (g : GraphData) (h : EdgeIdsInv g) :
    EdgeIdsInv (es.foldl addEdge1 g) := by
  induction es generalizing g with
  | nil => exact h
  | cons e rest ih => exact ih _ (addEdge1_edgeIdsInv g e h)

/-- C4 (amended): `add_edge` dedups on the formatted identity string
`from/fromKey->to/toKey@collection`: a call whose identity is already present
returns `false` and changes nothing, a call with a fresh identity appends the
edge (property bag included) and returns `true`, the identity is a function of
the five-component tuple alone (so a repeat of the same tuple with a different
property bag is dropped), and after any call sequence on a fresh accumulator
the stored identities — hence the stored tuples — are pairwise distinct. -/
theorem C4_addEdge_dedup_amended :
    (∀ (g : GraphData) (e : EdgeT), e.uniqueId ∈ g.edge_ids → addEdgeB g e = (g, false)) ∧
    (∀ (g : GraphData) (e : EdgeT), e.uniqueId ∉ g.edge_ids →
      addEdgeB g e =
        ({ g with edge_ids := g.edge_ids ++ [e.uniqueId], edges := g.edges ++ [e] }, true)) ∧
    (∀ e e' : EdgeT, e.tuple = e'.tuple → e.uniqueId = e'.uniqueId) ∧
    (∀ (s : String) (es : List EdgeT),
      ((es.foldl addEdge1 { search_term := s }).edges.map EdgeT.uniqueId).Nodup) := by
  refine ⟨addEdgeB_of_mem, addEdgeB_of_not_mem, ?_, ?_⟩
  · intro e e' ht
    simp only [EdgeT.tuple, Prod.mk.injEq] at ht
    obtain ⟨h1, h2, h3, h4, h5⟩ := ht
    simp [EdgeT.uniqueId, h1, h2, h3, h4, h5]
  · intro s es
    have h := foldl_addEdge1_edgeIdsInv es { search_term := s } ⟨rfl, List.nodup_nil⟩
    exact h.1 ▸ h.2

/-- Witness for C4: a second `add_edge` with the same tuple but a different
property bag is refused, the identity agrees across the two property bags, and
the resulting id list is duplicate-free. -/
theorem C4_addEdge_dedup_amended_witness :
    addEdgeB (addEdge1 { search_term := "w" }
        ⟨"drugs", "a", "substances", "s", "drug_has_substance", [("p", "1")]⟩)
        ⟨"drugs", "a", "substances", "s", "drug_has_substance", [("p", "2")]⟩
      = (addEdge1 { search_term := "w" }
          ⟨"drugs", "a", "substances", "s", "drug_has_substance", [("p", "1")]⟩, false) ∧
    EdgeT.uniqueId ⟨"drugs", "a", "substances", "s", "drug_has_substance", [("p", "1")]⟩
      = EdgeT.uniqueId ⟨"drugs", "a", "substances", "s", "drug_has_substance", [("p", "2")]⟩ ∧
    ((([⟨"drugs", "a", "substances", "s", "drug_has_substance", [("p", "1")]⟩,
        ⟨"drugs", "a", "substances", "s", "drug_has_substance", [("p", "2")]⟩] :
        List EdgeT).foldl addEdge1 { search_term := "w" }).edges.map EdgeT.uniqueId).Nodup :=
  ⟨C4_addEdge_dedup_amended.1 _ _ (by decide),
   C4_addEdge_dedup_amended.2.2.1 _ _ (by decide),
   C4_addEdge_dedup_amended.2.2.2 "w" _⟩

/-- Counterexample to C4 as stated: two edges with *different* five-component
tuples can share the formatted identity (a `/` inside a key shifts the
separators), so the first call for the second tuple returns `false` and stores
nothing, contradicting "the first call for a tuple stores its edge and returns
true". -/
theorem C4_addEdge_dedup_counterexample :
    (addEdgeB (addEdge1 { search_term := "w" } ⟨"a", "b", "c/x", "d", "e", []⟩)
        ⟨"a", "b", "c", "x/d", "e", []⟩).2 = false ∧
    (addEdgeB (addEdge1 { search_term := "w" } ⟨"a", "b", "c/x", "d", "e", []⟩)
        ⟨"a", "b", "c", "x/d", "e", []⟩).1.edges.length = 1 ∧
    EdgeT.tuple ⟨"a", "b", "c/x", "d", "e", []⟩ ≠ EdgeT.tuple ⟨"a", "b", "c", "x/d", "e", []⟩ := by
  decide

end PharmaNel

namespace PharmaNel

/-! ## C6 / C7 — `generate_key` hash fallback and leading-digit handling -/

theorem leBytes_length (k : Nat) : ∀ n, (leBytes k n).length = k := by
  induction k with
  | zero => intro n; rfl
  | succ k ih => intro n; simp [leBytes, ih]

theorem md5Bytes_length (msg : List Nat) : (md5Bytes msg).length = 16 := by
  simp [md5Bytes, leBytes_length]

theorem flatten_byteHex_length (l : List Nat) : ((l.map byteHex).flatten).length = 2 * l.length := by
  induction l with
  | nil => rfl
  | cons b rest ih => simp [byteHex, ih]; omega

theorem md5Hex_data_length (s : String) : (md5Hex s).data.length = 32 := by
  show ((md5Bytes (utf8Bytes s)).map byteHex).flatten.length = 32
  rw [flatten_byteHex_length, md5Bytes_length]

theorem md5Hex16_length (s : String) : (md5Hex16 s).length = 16 := by
  show ((md5Hex s).data.take 16).length = 16
  rw [List.length_take, md5Hex_data_length]
  decide

theorem hexDigitChar_mem (n : Nat) : hexDigitChar n ∈ hexChars := by
  unfold hexDigitChar
  rcases h : hexChars[n]? with _ | c
  · simp [List.getD, h]
    decide
  · have hm := List.getElem?_mem h
    simpa [List.getD, h] using hm

theorem md5Hex16_chars (s : String) : ∀ c ∈ (md5Hex16 s).data, c ∈ hexChars := by
  intro c hc
  have hc2 : c ∈ ((md5Bytes (utf8Bytes s)).map byteHex).flatten := List.take_subset _ _ hc
  rw [List.mem_flatten] at hc2
  obtain ⟨l, hl, hcl⟩ := hc2
  rw [List.mem_map] at hl
  obtain ⟨b, _, rfl⟩ := hl
  have : c = hexDigitChar (b / 16 % 16) ∨ c = hexDigitChar (b % 16) := by
    simpa [byteHex] using hcl
  rcases this with rfl | rfl <;> exact hexDigitChar_mem _

theorem combinedOf_empty_clean (args : List String) (h : combinedOf args = "") :
    cleanOf args = "" := by
  simp [cleanOf, h, subNonKey, collapseUnd, stripUnd]
  rfl

theorem cleanOf_empty_cleaned (args : List String) (h : cleanOf args = "") :
    cleanedOf args = "" := by
  unfold cleanedOf
  simp [h]

/-- With a long cleaned value, `generate_key` reaches the hash branch. -/
theorem generate_key_hash_branch (args : List String) (h : 64 < (cleanedOf args).length) :
    generate_key args = some (md5Hex16 (combinedOf args)) := by
  have hcomb : ¬ combinedOf args = "" := by
    intro he
    rw [cleanOf_empty_cleaned args (combinedOf_empty_clean args he)] at h
    simp at h
  have hclean : ¬ cleanOf args = "" := by
    intro he
    rw [cleanOf_empty_cleaned args he] at h
    simp at h
  unfold generate_key
  simp [hcomb, hclean, h]

/-- C6 (amended): whenever the *cleaned* value (after the digit-prefix step)
exceeds 64 characters, `generate_key` returns the first 16 characters of the
lowercase-hex MD5 digest of the joined string — a deterministic function of
the joined string, 16 characters long, all of them lowercase hex digits. -/
theorem C6_long_key_hash_amended (args : List String) (h : 64 < (cleanedOf args).length) :
    generate_key args = some (md5Hex16 (combinedOf args)) ∧
    (md5Hex16 (combinedOf args)).length = 16 ∧
    ∀ c ∈ (md5Hex16 (combinedOf args)).data, c ∈ hexChars :=
  ⟨generate_key_hash_branch args h, md5Hex16_length _, md5Hex16_chars _⟩

set_option maxRecDepth 10000 in
/-- Witness for C6 at a 65-`'b'` argument. -/
theorem C6_long_key_hash_amended_witness :
    64 < (cleanedOf [String.mk (List.replicate 65 'b')]).length ∧
    generate_key [String.mk (List.replicate 65 'b')]
      = some (md5Hex16 (combinedOf [String.mk (List.replicate 65 'b')])) ∧
    (md5Hex16 (combinedOf [String.mk (List.replicate 65 'b')])).length = 16 :=
  ⟨by decide,
   (C6_long_key_hash_amended [String.mk (List.replicate 65 'b')] (by decide)).1,
   (C6_long_key_hash_amended [String.mk (List.replicate 65 'b')] (by decide)).2.1⟩

set_option maxRecDepth 10000 in
/-- Counterexample to C6 as stated: the 64-character test is applied to the
*cleaned* value, not to the joined string.  An input whose joined string has
length 71 but whose cleaned value collapses to `"a"` yields the one-character
key `"a"`, not a 16-character hex digest. -/
theorem C6_long_key_hash_counterexample :
    64 < (combinedOf [String.mk ('a' :: List.replicate 70 '!')]).length ∧
    generate_key [String.mk ('a' :: List.replicate 70 '!')] = some "a" ∧
    ("a" : String).length = 1 := by
  decide

/-- `key[0]` is not an ASCII digit (true of the empty string as well). -/
def noLeadingDigit (k : String) : Bool := !isPyDigit (k.data.headD 'x')

/-- C7 (amended): the digit-prefix step does fire on the cleaned value — a
cleaned value starting with a digit is prefixed with the literal `k_` — and
every key produced by the *cleaned* branch (cleaned length ≤ 64) is free of a
leading digit; keys from the MD5 fallback branch are not covered (see the
counterexample: they may begin with a hex digit). -/
theorem C7_no_leading_digit_amended :
    (∀ args : List String, cleanOf args ≠ "" →
      isPyDigit ((cleanOf args).data.headD ' ') = true →
      cleanedOf args = "k_" ++ cleanOf args) ∧
    (∀ (args : List String) (k : String), (cleanedOf args).length ≤ 64 →
      generate_key args = some k → k = cleanedOf args ∧ noLeadingDigit k = true) := by
  constructor
  · intro args hne hd
    unfold cleanedOf
    simp at hd
    simp [hne, hd]
  · intro args k hlen hk
    unfold generate_key at hk
    by_cases hcomb : combinedOf args = ""
    · simp [hcomb] at hk
    by_cases hclean : cleanOf args = ""
    · simp [hcomb, hclean] at hk
    have hnot : ¬ 64 < (cleanedOf args).length := by omega
    simp [hcomb, hclean, hnot] at hk
    refine ⟨hk.symm, ?_⟩
    subst hk
    unfold cleanedOf noLeadingDigit
    by_cases hd : isPyDigit ((cleanOf args).data.headD ' ') = true
    · have hdata : ("k_" ++ cleanOf args).data = 'k' :: '_' :: (cleanOf args).data := by
        rw [String.data_append]; rfl
      simp at hd
      simp [hclean, hd, hdata]
      decide
    · simp at hd
      simp [hclean, hd]
      rcases hdt : (cleanOf args).data with _ | ⟨c, cs⟩
      · exact absurd (String.ext hdt) hclean
      · rw [hdt] at hd
        simpa using hd

set_option maxRecDepth 10000 in
/-- Witness for C7 on `generate_key("Ibuprofen")`. -/
theorem C7_no_leading_digit_amended_witness :
    cleanOf ["9mm Test"] ≠ "" ∧ cleanedOf ["9mm Test"] = "k_" ++ cleanOf ["9mm Test"] ∧
    (cleanedOf ["Ibuprofen"]).length ≤ 64 ∧ generate_key ["Ibuprofen"] = some "ibuprofen" ∧
    "ibuprofen" = cleanedOf ["Ibuprofen"] ∧ noLeadingDigit "ibuprofen" = true :=
  ⟨by decide,
   C7_no_leading_digit_amended.1 ["9mm Test"] (by decide) (by decide),
   by decide, by decide,
   (C7_no_leading_digit_amended.2 ["Ibuprofen"] "ibuprofen" (by decide) (by decide)).1,
   (C7_no_leading_digit_amended.2 ["Ibuprofen"] "ibuprofen" (by decide) (by decide)).2⟩

set_option maxRecDepth 10000 in
/-- Counterexample to C7 as stated: the `k_` prefix is applied *before* the
64-character test, and the MD5 fallback can begin with a digit.  65 `'b'`s
clean to a 65-character value, fall through to the hash branch, and yield the
key `"9462294d920aeb63"`, which begins with the digit `9`. -/
theorem C7_no_leading_digit_counterexample :
    generate_key [String.mk (List.replicate 65 'b')] = some "9462294d920aeb63" ∧
    noLeadingDigit "9462294d920aeb63" = false := by
  constructor
  · decide
  · decide

end PharmaNel

namespace PharmaNel

/-! ## C1 — chemical enrichment merge policy -/

/-- C1 (amended): for a Substance that resolves to a chemical record, the
enrichment loop fills the UNII code only if it was absent, but assigns every
other chemical field (formula, molecular weight, SMILES, InChI, InChI key,
CAS, PubChem id, substance class, stereochemistry) unconditionally from the
resolved record — overwriting non-null values, possibly with null — marks the
Substance enriched and timestamps it, leaving key, name and RxCUI untouched;
an unresolved Substance is unchanged; the pass maps this update over every
Substance in the accumulator. -/
theorem C1_chemical_enrichment_amended :
    (∀ (chemLookup : String → Option ChemicalData) (now : String) (sub : Substance)
        (chem : ChemicalData), resolveChem chemLookup sub = some chem →
      (enrichSubstance chemLookup now sub).formula = chem.formula ∧
      (enrichSubstance chemLookup now sub).molecular_weight = chem.molecular_weight ∧
      (enrichSubstance chemLookup now sub).smiles = chem.smiles ∧
      (enrichSubstance chemLookup now sub).inchi = chem.inchi ∧
      (enrichSubstance chemLookup now sub).inchi_key = chem.inchi_key ∧
      (enrichSubstance chemLookup now sub).cas_number = chem.cas_number ∧
      (enrichSubstance chemLookup now sub).pubchem_id = chem.pubchem_id ∧
      (enrichSubstance chemLookup now sub).substance_class = chem.substance_class ∧
      (enrichSubstance chemLookup now sub).stereochemistry = chem.stereochemistry ∧
      (enrichSubstance chemLookup now sub).is_enriched = true ∧
      (enrichSubstance chemLookup now sub).enriched_at = some now ∧
      (enrichSubstance chemLookup now sub).unii =
        (if optTruthy chem.unii && !(optTruthy sub.unii) then chem.unii else sub.unii) ∧
      (enrichSubstance chemLookup now sub).key = sub.key ∧
      (enrichSubstance chemLookup now sub).name = sub.name ∧
      (enrichSubstance chemLookup now sub).rxcui = sub.rxcui) ∧
    (∀ (chemLookup : String → Option ChemicalData) (now : String) (sub : Substance),
      resolveChem chemLookup sub = none → enrichSubstance chemLookup now sub = sub) ∧
    (∀ (chemLookup : String → Option ChemicalData) (g : GraphData) (now : String),
      (enrichSubstances chemLookup g now).substances
        = g.substances.map (fun p => (p.1, enrichSubstance chemLookup now p.2))) := by
  refine ⟨?_, ?_, ?_⟩
  · intro chemLookup now sub chem h
    unfold enrichSubstance
    rw [h]
    by_cases hu : optTruthy chem.unii && !(optTruthy sub.unii)
    · simp [hu]
    · simp [hu]
  · intro chemLookup now sub h
    unfold enrichSubstance
    rw [h]
  · intro chemLookup g now
    unfold enrichSubstances
    by_cases h : g.substances = []
    · simp [h]
    · simp [h]

/-- Witness for C1: a resolved record with a null formula and a fresh UNII —
the formula is overwritten (to null), the UNII is filled. -/
theorem C1_chemical_enrichment_amended_witness :
    resolveChem (fun n => if n = "x" then some ({ unii := some "U1" } : ChemicalData) else none)
        { key := "x", name := "x", formula := some "F0" }
      = some ({ unii := some "U1" } : ChemicalData) ∧
    (enrichSubstance
        (fun n => if n = "x" then some ({ unii := some "U1" } : ChemicalData) else none) "t"
        { key := "x", name := "x", formula := some "F0" }).formula = none ∧
    (enrichSubstance
        (fun n => if n = "x" then some ({ unii := some "U1" } : ChemicalData) else none) "t"
        { key := "x", name := "x", formula := some "F0" }).unii = some "U1" :=
  ⟨by decide,
   (C1_chemical_enrichment_amended.1
     (fun n => if n = "x" then some ({ unii := some "U1" } : ChemicalData) else none) "t"
     { key := "x", name := "x", formula := some "F0" }
     ({ unii := some "U1" } : ChemicalData) (by decide)).1,
   (C1_chemical_enrichment_amended.1
     (fun n => if n = "x" then some ({ unii := some "U1" } : ChemicalData) else none) "t"
     { key := "x", name := "x", formula := some "F0" }
     ({ unii := some "U1" } : ChemicalData)
     (by decide)).2.2.2.2.2.2.2.2.2.2.2.1⟩

/-- Counterexample to C1 as stated: a Substance already holding
`formula = "C6H12O6"` has its formula *overwritten* by the enrichment pass
when the resolved record carries a different formula — the pass is not
fill-null-only for the descriptive fields. -/
theorem C1_chemical_enrichment_counterexample :
    (enrichSubstances
        (fun n => if n = "glucose" then some ({ formula := some "CH4" } : ChemicalData) else none)
        { search_term := "glucose"
          substances := [("glucose",
            { key := "glucose", name := "glucose", formula := some "C6H12O6" })] }
        "t").substances
      = [("glucose", { key := "glucose", name := "glucose", formula := some "CH4",
                       is_enriched := true, enriched_at := some "t" })] ∧
    (some "C6H12O6" : Option String) ≠ some "CH4" := by
  constructor
  · decide
  · decide

/-! ## C9 — duplicate-key races are benign skips, other failures propagate -/

theorem storeKeys_colUpdate (s : Store) (n : String) (d : Doc) (m : String) :
    storeKeys (colUpdate s n d) m = storeKeys s m := by
  unfold storeKeys colDocs colUpdate
  rw [alGet_alSet]
  by_cases h : m = n
  · rw [if_pos h]
    subst h
    cases hg : alGet s m
    · simp [hg]
    · simp only [hg, Option.map_some', Option.getD_some, List.map_map]
      refine List.map_congr_left (fun d0 _ => ?_)
      by_cases hk : (d0.docKey == d.docKey) = true <;> simp [Function.comp, hk]
  · simp [h]

/-- C9: `_safe_insert` turns a `DocumentInsertError` whose text mentions the
unique-constraint violation into a benign `false` (skip); a
`DocumentInsertError` with any other text, and any non-`DocumentInsertError`
failure, propagate to the caller.  A vertex-persist run whose inserts all fail
as duplicates still completes (no error surfaces) and adds no document. -/
theorem C9_duplicate_key_skip :
    (∀ msg, containsUCV msg = true → safeInsertRes (.docInsertErr msg) = .ok false) ∧
    (∀ msg, containsUCV msg = false → safeInsertRes (.docInsertErr msg) = .error msg) ∧
    (∀ msg, safeInsertRes (.otherExc msg) = .error msg) ∧
    (∀ (name : String) (store : Store) (count : Nat) (docs : List Doc) (msg : String),
      containsUCV msg = true →
      ∃ s n, persistVerticesLoop (fun _ _ => .docInsertErr msg) name store count docs
          = .ok (s, n) ∧ ∀ m, storeKeys s m = storeKeys store m) ∧
    (∀ (name : String) (store : Store) (count : Nat) (docs : List Doc) (doc : Doc)
        (msg : String), doc.docKey ≠ "" → colHas store name doc.docKey = false →
      persistVerticesLoop (fun _ _ => .otherExc msg) name store count (doc :: docs)
        = .error msg) := by
  refine ⟨?_, ?_, ?_, ?_, ?_⟩
  · intro msg h; simp [safeInsertRes, h]
  · intro msg h; simp [safeInsertRes, h]
  · intro msg; rfl
  · intro name store count docs msg hmsg
    induction docs generalizing store count with
    | nil => exact ⟨store, count, rfl, fun m => rfl⟩
    | cons doc rest ih =>
        by_cases hk : doc.docKey ≠ ""
        · by_cases hh : colHas store name doc.docKey = true
          · obtain ⟨s, n, heq, hkeys⟩ := ih (colUpdate store name doc) (count + 1)
            refine ⟨s, n, ?_, fun m => (hkeys m).trans (storeKeys_colUpdate _ _ _ _)⟩
            simp only [persistVerticesLoop]
            rw [if_pos hk, if_pos hh]
            exact heq
          · obtain ⟨s, n, heq, hkeys⟩ := ih store (count + 1)
            refine ⟨s, n, ?_, hkeys⟩
            have hsafe : safeInsertRes (.docInsertErr msg) = .ok false := by
              simp [safeInsertRes, hmsg]
            simp only [persistVerticesLoop]
            rw [if_pos hk, if_neg hh, hsafe]
            exact heq
        · obtain ⟨s, n, heq, hkeys⟩ := ih store count
          refine ⟨s, n, ?_, hkeys⟩
          simp only [persistVerticesLoop]
          rw [if_neg hk]
          exact heq
  · intro name store count docs doc msg hk hh
    simp [persistVerticesLoop, hk, hh, safeInsertRes]

/-- Witness for C9 on concrete messages and a one-document batch. -/
theorem C9_duplicate_key_skip_witness :
    safeInsertRes (.docInsertErr "conflict: unique constraint violated (index _key)")
      = .ok false ∧
    safeInsertRes (.docInsertErr "disk full") = .error "disk full" ∧
    safeInsertRes (.otherExc "connection reset") = .error "connection reset" ∧
    (∃ s n, persistVerticesLoop
        (fun _ _ => .docInsertErr "conflict: unique constraint violated (index _key)")
        "drugs" [] 0 [{ docKey := "k1" }] = .ok (s, n) ∧
      ∀ m, storeKeys s m = storeKeys ([] : Store) m) ∧
    persistVerticesLoop (fun _ _ => .otherExc "boom") "drugs" [] 0 [{ docKey := "k1" }]
      = .error "boom" :=
  ⟨C9_duplicate_key_skip.1 _ (by decide),
   C9_duplicate_key_skip.2.1 _ (by decide),
   C9_duplicate_key_skip.2.2.1 _,
   C9_duplicate_key_skip.2.2.2.1 "drugs" [] 0 _ _ (by decide),
   C9_duplicate_key_skip.2.2.2.2 "drugs" [] 0 [] _ _ (by decide) (by decide)⟩

end PharmaNel

namespace PharmaNel

/-! ## C5 — outcome flag -/

theorem addEdge1_found (g : GraphData) (e : EdgeT) : (addEdge1 g e).found = g.found := by
  by_cases h : e.uniqueId ∈ g.edge_ids <;> simp [addEdge1, addEdgeB, h]

theorem addEdge1_drugs (g : GraphData) (e : EdgeT) : (addEdge1 g e).drugs = g.drugs := by
  by_cases h : e.uniqueId ∈ g.edge_ids <;> simp [addEdge1, addEdgeB, h]

theorem addEdge1_substances (g : GraphData) (e : EdgeT) :
    (addEdge1 g e).substances = g.substances := by
  by_cases h : e.uniqueId ∈ g.edge_ids <;> simp [addEdge1, addEdgeB, h]

theorem foldl_addEdge1_found {β : Type} (mk : β → EdgeT) (l : List β) (g : GraphData) :
    (l.foldl (fun g b => addEdge1 g (mk b)) g).found = g.found := by
  induction l generalizing g with
  | nil => rfl
  | cons b rest ih => rw [List.foldl_cons, ih, addEdge1_found]

theorem foldl_addEdge1_drugs {β : Type} (mk : β → EdgeT) (l : List β) (g : GraphData) :
    (l.foldl (fun g b => addEdge1 g (mk b)) g).drugs = g.drugs := by
  induction l generalizing g with
  | nil => rfl
  | cons b rest ih => rw [List.foldl_cons, ih, addEdge1_drugs]

theorem foldl_addEdge1_substances {β : Type} (mk : β → EdgeT) (l : List β) (g : GraphData) :
    (l.foldl (fun g b => addEdge1 g (mk b)) g).substances = g.substances := by
  induction l generalizing g with
  | nil => rfl
  | cons b rest ih => rw [List.foldl_cons, ih, addEdge1_substances]

theorem ensureMain_found (name : String) (g : GraphData) (now : String) :
    (ensureMainSubstance name g now).found = g.found := by
  unfold ensureMainSubstance
  by_cases h1 : alHas g.substances (mainSubstanceKey name) = true
  · simp [h1]
  · by_cases h2 : (g.substances.any fun p => pyLower p.2.name == pyLower name) = true
    · simp [h1, h2]
    · simp only [h1, h2, Bool.false_eq_true, if_false]
      exact foldl_addEdge1_found _ _ _

theorem ensureMain_drugs (name : String) (g : GraphData) (now : String) :
    (ensureMainSubstance name g now).drugs = g.drugs := by
  unfold ensureMainSubstance
  by_cases h1 : alHas g.substances (mainSubstanceKey name) = true
  · simp [h1]
  · by_cases h2 : (g.substances.any fun p => pyLower p.2.name == pyLower name) = true
    · simp [h1, h2]
    · simp only [h1, h2, Bool.false_eq_true, if_false]
      exact foldl_addEdge1_drugs _ _ _

theorem ensureMain_substances_extend (name : String) (g : GraphData) (now : String) :
    ∃ l, (ensureMainSubstance name g now).substances = g.substances ++ l := by
  unfold ensureMainSubstance
  by_cases h1 : alHas g.substances (mainSubstanceKey name) = true
  · exact ⟨[], by simp [h1]⟩
  · by_cases h2 : (g.substances.any fun p => pyLower p.2.name == pyLower name) = true
    · exact ⟨[], by simp [h1, h2]⟩
    · refine ⟨[(mainSubstanceKey name,
        { key := mainSubstanceKey name, name := pyUpper name, is_enriched := true,
          enriched_at := some now })], ?_⟩
      simp only [h1, h2, Bool.false_eq_true, if_false]
      exact foldl_addEdge1_substances _ _ _

/-- The final two steps of `get_substance_data` (outcome determination and the
main-substance guarantee) make `found` agree with non-emptiness of the drug or
substance maps. -/
theorem finalize_found_iff (G fin : GraphData) (name now : String)
    (hfin : fin = if (decide (0 < G.drugs.length) || decide (0 < G.substances.length)) = true then ensureMainSubstance name { G with found := decide (0 < G.drugs.length) || decide (0 < G.substances.length) } now else { G with found := decide (0 < G.drugs.length) || decide (0 < G.substances.length) }) :
    fin.found = true ↔ (fin.drugs ≠ [] ∨ fin.substances ≠ []) := by
  subst hfin
  by_cases hb : (decide (0 < G.drugs.length) || decide (0 < G.substances.length)) = true
  · rw [if_pos hb]
    have hb2 : 0 < G.drugs.length ∨ 0 < G.substances.length := by simpa using hb
    constructor
    · intro _
      obtain ⟨l, hl⟩ := ensureMain_substances_extend name
        { G with found := decide (0 < G.drugs.length) || decide (0 < G.substances.length) } now
      rcases hb2 with h | h
      · left
        rw [ensureMain_drugs]
        exact List.length_pos.mp h
      · right
        rw [hl]
        intro he
        exact absurd (List.append_eq_nil.mp he).1 (List.length_pos.mp h)
    · intro _
      rw [ensureMain_found]
      exact hb
  · rw [if_neg hb]
    simp only [Bool.or_eq_true, decide_eq_true_eq, not_or] at hb
    constructor
    · intro hcontr
      exact absurd hcontr (by simp [Nat.not_lt.mp hb.1, Nat.not_lt.mp hb.2])
    · intro hne
      rcases hne with h | h
      · exact absurd (List.length_pos.mpr h) hb.1
      · exact absurd (List.length_pos.mpr h) hb.2

/-- C5: at the end of a run `found` is true exactly when a Drug or a Substance
exists in the accumulator; and a run in which every source yields zero records
(and the nomenclature source reports not-found) ends with `found = false`, no
drugs, and no substances — in particular no main-substance vertex. -/
theorem C5_found_flag (name : String) (ie ii : Bool) (fd : FdaData) (rd : RxNormData)
    (lbl : String → Option LabelData) (chem : String → Option ChemicalData) (now : String) :
    ((getSubstanceData name ie ii fd rd lbl chem now).found = true ↔
      ((getSubstanceData name ie ii fd rd lbl chem now).drugs ≠ [] ∨
       (getSubstanceData name ie ii fd rd lbl chem now).substances ≠ [])) ∧
    ((getSubstanceData name ie ii {} { rd with found := false } lbl chem now).found = false ∧
     (getSubstanceData name ie ii {} { rd with found := false } lbl chem now).drugs = [] ∧
     (getSubstanceData name ie ii {} { rd with found := false } lbl chem now).substances = []) := by
  constructor
  · exact finalize_found_iff (enrichSubstances chem (fetchLabelsBySplId lbl (processNdcData fd.ndc { search_term := name } name now).2 (processRxnormData rd (if ie then processEventData fd.events (processEnforcementData fd.enforcement (processDrugsFdaData fd.drugsfda (processNdcData fd.ndc { search_term := name } name now).1 now)) else processEnforcementData fd.enforcement (processDrugsFdaData fd.drugsfda (processNdcData fd.ndc { search_term := name } name now).1 now)) ii)) now) _ name now rfl
  · cases ie <;> exact ⟨rfl, rfl, rfl⟩

end PharmaNel

namespace PharmaNel

/-! ## C8 — interaction pairs -/

theorem uniqueId_ne_of_from_key_ne (fc tc ec tk : String) (p1 p2 : List (String × String))
    (k1 k2 : String) (h : k1 ≠ k2) :
    EdgeT.uniqueId ⟨fc, k1, tc, tk, ec, p1⟩ ≠ EdgeT.uniqueId ⟨fc, k2, tc, tk, ec, p2⟩ := by
  intro he
  apply h
  unfold EdgeT.uniqueId at he
  have hd := congrArg String.data he
  simp only [String.data_append, List.append_assoc] at hd
  have h1 := List.append_cancel_left hd
  have h2 := List.append_cancel_left h1
  have hlen : k1.data.length = k2.data.length := by
    have := congrArg List.length h2
    simp only [List.length_append] at this
    omega
  exact String.ext (List.append_inj_left h2 hlen)

/-- C8: an interaction record with a non-empty description, a resolved source
drug, and a distinct non-empty-named target produces exactly one new
Interaction entity under the synthesized key and exactly two
`drug_interacts_with` edges — source drug → interaction tagged `role=source`
and target drug → interaction tagged `role=target`, both carrying the
severity — creating the target Drug only if unseen. -/
theorem C8_interaction_pair (g : GraphData) (i : RxInteraction) (src_key : String)
    (src_rxcui : Option String) (src_name : String) (kI kB : String)
    (hdesc : i.description ≠ "")
    (hkI : generate_key [pyOrOS src_rxcui src_name,
        pyOrS i.minConceptItem.rxcui i.minConceptItem.name, "interaction"] = some kI)
    (hIfresh : alHas g.interactions kI = false)
    (htname : i.minConceptItem.name ≠ "")
    (hkB : generate_key [i.minConceptItem.name] = some kB)
    (hAB : kB ≠ src_key)
    (heA : EdgeT.uniqueId ⟨"drugs", src_key, "interactions", kI, "drug_interacts_with",
        [("severity", i.severity.getD "N/A"), ("role", "source")]⟩ ∉ g.edge_ids)
    (heB : EdgeT.uniqueId ⟨"drugs", kB, "interactions", kI, "drug_interacts_with",
        [("severity", i.severity.getD "N/A"), ("role", "target")]⟩ ∉ g.edge_ids) :
    (processInteraction (some src_key) src_rxcui src_name g i).interactions
      = g.interactions ++ [(kI,
        { key := kI, severity := some (i.severity.getD "N/A"),
          description := some i.description,
          source_drug_rxcui := src_rxcui, source_drug_name := some src_name,
          target_drug_rxcui := some i.minConceptItem.rxcui,
          target_drug_name := some i.minConceptItem.name, source_api := "rxnorm" })] ∧
    (processInteraction (some src_key) src_rxcui src_name g i).edges
      = g.edges ++ [⟨"drugs", src_key, "interactions", kI, "drug_interacts_with",
          [("severity", i.severity.getD "N/A"), ("role", "source")]⟩,
         ⟨"drugs", kB, "interactions", kI, "drug_interacts_with",
          [("severity", i.severity.getD "N/A"), ("role", "target")]⟩] ∧
    (processInteraction (some src_key) src_rxcui src_name g i).drugs
      = (if alHas g.drugs kB = true then g.drugs
         else g.drugs ++ [(kB, ({ key := kB, rxcui := if i.minConceptItem.rxcui = "" then [] else [i.minConceptItem.rxcui], source := "rxnorm_interaction" } : Drug))]) := by
  have hBA : EdgeT.uniqueId ⟨"drugs", kB, "interactions", kI, "drug_interacts_with",
        [("severity", i.severity.getD "N/A"), ("role", "target")]⟩
      ≠ EdgeT.uniqueId ⟨"drugs", src_key, "interactions", kI, "drug_interacts_with",
        [("severity", i.severity.getD "N/A"), ("role", "source")]⟩ :=
    uniqueId_ne_of_from_key_ne _ _ _ _ _ _ _ _ hAB
  have hI' : ¬ alHas g.interactions kI = true := by simp [hIfresh]
  have hA' : ¬ g.edge_ids.contains (EdgeT.uniqueId ⟨"drugs", src_key, "interactions", kI,
      "drug_interacts_with", [("severity", i.severity.getD "N/A"), ("role", "source")]⟩)
      = true := by simpa using heA
  have hB2 : EdgeT.uniqueId ⟨"drugs", kB, "interactions", kI, "drug_interacts_with",
      [("severity", i.severity.getD "N/A"), ("role", "target")]⟩
      ∉ g.edge_ids ++ [EdgeT.uniqueId ⟨"drugs", src_key, "interactions", kI,
        "drug_interacts_with", [("severity", i.severity.getD "N/A"), ("role", "source")]⟩] := by
    intro hmem
    rcases List.mem_append.mp hmem with h | h
    · exact heB h
    · exact hBA (List.mem_singleton.mp h)
  have hB' : ¬ (g.edge_ids ++ [EdgeT.uniqueId ⟨"drugs", src_key, "interactions", kI,
      "drug_interacts_with", [("severity", i.severity.getD "N/A"), ("role", "source")]⟩]).contains
      (EdgeT.uniqueId ⟨"drugs", kB, "interactions", kI, "drug_interacts_with",
        [("severity", i.severity.getD "N/A"), ("role", "target")]⟩) = true := by
    simpa using hB2
  unfold processInteraction
  by_cases hB : alHas g.drugs kB = true <;>
    simp [if_neg hdesc, hkI, hI', htname, hkB, hB, addEdge1, addEdgeB, heA, hB2, alAdd]

/-- Witness for C8: one concrete interaction pair on a fresh accumulator. -/
theorem C8_interaction_pair_witness :
    (processInteraction (some "a") (some "1") "A" { search_term := "w" }
        { description := "d", minConceptItem := { rxcui := "2", name := "B" } }).interactions
      = [("k_1_2_interaction", ({ key := "k_1_2_interaction", severity := some "N/A", description := some "d", source_drug_rxcui := some "1", source_drug_name := some "A", target_drug_rxcui := some "2", target_drug_name := some "B", source_api := "rxnorm" } : Interaction))] ∧
    (processInteraction (some "a") (some "1") "A" { search_term := "w" }
        { description := "d", minConceptItem := { rxcui := "2", name := "B" } }).edges
      = [⟨"drugs", "a", "interactions", "k_1_2_interaction", "drug_interacts_with", [("severity", "N/A"), ("role", "source")]⟩,
         ⟨"drugs", "b", "interactions", "k_1_2_interaction", "drug_interacts_with", [("severity", "N/A"), ("role", "target")]⟩] ∧
    (processInteraction (some "a") (some "1") "A" { search_term := "w" }
        { description := "d", minConceptItem := { rxcui := "2", name := "B" } }).drugs
      = [("b", ({ key := "b", rxcui := ["2"], source := "rxnorm_interaction" } : Drug))] := by
  have h := C8_interaction_pair { search_term := "w" }
    { description := "d", minConceptItem := { rxcui := "2", name := "B" } }
    "a" (some "1") "A" "k_1_2_interaction" "b"
    (by decide) (by decide) (by decide) (by decide) (by decide) (by decide) (by decide) (by decide)
  exact ⟨h.1, h.2.1, h.2.2⟩

end PharmaNel

namespace PharmaNel

/-! ## C2 — main-substance guarantee -/

theorem addEdge1_edges_extend (g : GraphData) (e : EdgeT) :
    ∃ l, (addEdge1 g e).edges = g.edges ++ l := by
  by_cases h : e.uniqueId ∈ g.edge_ids
  · exact ⟨[], by simp [addEdge1, addEdgeB, h]⟩
  · exact ⟨[e], by simp [addEdge1, addEdgeB, h]⟩

theorem foldl_addEdge1_edges_extend {β : Type} (mk : β → EdgeT) (l : List β) (g : GraphData) :
    ∃ m, (l.foldl (fun g x => addEdge1 g (mk x)) g).edges = g.edges ++ m := by
  induction l generalizing g with
  | nil => exact ⟨[], by simp⟩
  | cons x rest ih =>
      obtain ⟨m1, h1⟩ := addEdge1_edges_extend g (mk x)
      obtain ⟨m2, h2⟩ := ih (addEdge1 g (mk x))
      exact ⟨m1 ++ m2, by rw [List.foldl_cons, h2, h1, List.append_assoc]⟩

theorem addEdge1_mem_uid (g : GraphData) (e : EdgeT) (hInv : EdgeIdsInv g) :
    ∃ e2 ∈ (addEdge1 g e).edges, e2.uniqueId = e.uniqueId := by
  by_cases h : e.uniqueId ∈ g.edge_ids
  · have hres : (addEdge1 g e).edges = g.edges := by simp [addEdge1, addEdgeB, h]
    rw [hInv.1] at h
    obtain ⟨e2, he2, huid⟩ := List.mem_map.mp h
    exact ⟨e2, hres ▸ he2, huid⟩
  · refine ⟨e, ?_, rfl⟩
    simp [addEdge1, addEdgeB, h]

theorem foldl_addEdge1_mem_uid {β : Type} (mk : β → EdgeT) (l : List β) (g : GraphData)
    (hInv : EdgeIdsInv g) (b : β) (hb : b ∈ l) :
    ∃ e ∈ (l.foldl (fun g x => addEdge1 g (mk x)) g).edges, e.uniqueId = (mk b).uniqueId := by
  induction l generalizing g with
  | nil => cases hb
  | cons x rest ih =>
      rw [List.foldl_cons]
      rcases List.mem_cons.mp hb with rfl | hbr
      · obtain ⟨e, he, hu⟩ := addEdge1_mem_uid g (mk b) hInv
        obtain ⟨m, hm⟩ := foldl_addEdge1_edges_extend mk rest (addEdge1 g (mk b))
        exact ⟨e, hm ▸ List.mem_append_left m he, hu⟩
      · exact ih (addEdge1 g (mk x)) (addEdge1_edgeIdsInv _ _ hInv) hbr

/-- After the main-substance step a Substance matching the canonical key or
the search-term name exists. -/
theorem ensureMain_exists (name : String) (g : GraphData) (now : String) :
    alHas (ensureMainSubstance name g now).substances (mainSubstanceKey name) = true ∨
      ((ensureMainSubstance name g now).substances.any
        (fun p => pyLower p.2.name == pyLower name)) = true := by
  by_cases h1 : alHas g.substances (mainSubstanceKey name) = true
  · have hres : ensureMainSubstance name g now = g := by simp [ensureMainSubstance, h1]
    rw [hres]
    exact Or.inl h1
  · by_cases h2 : (g.substances.any fun p => pyLower p.2.name == pyLower name) = true
    · have hres : ensureMainSubstance name g now = g := by simp [ensureMainSubstance, h1, h2]
      rw [hres]
      exact Or.inr h2
    · left
      have hsub : (ensureMainSubstance name g now).substances
          = alAdd g.substances (mainSubstanceKey name)
            { key := mainSubstanceKey name, name := pyUpper name, is_enriched := true,
              enriched_at := some now } := by
        simp only [ensureMainSubstance, h1, h2, Bool.false_eq_true, if_false]
        exact foldl_addEdge1_substances _ _ _
      rw [hsub]
      unfold alHas
      rw [alGet_alAdd_of_not_has g.substances (mainSubstanceKey name) _ (by simpa using h1)]
      rfl

/-- The outcome-and-main-substance tail of `get_substance_data`: whenever the
final `found` is true, a matching Substance exists. -/
theorem finalize_main_exists (G fin : GraphData) (name now : String)
    (hfin : fin = if (decide (0 < G.drugs.length) || decide (0 < G.substances.length)) = true then ensureMainSubstance name { G with found := decide (0 < G.drugs.length) || decide (0 < G.substances.length) } now else { G with found := decide (0 < G.drugs.length) || decide (0 < G.substances.length) })
    (hfound : fin.found = true) :
    alHas fin.substances (mainSubstanceKey name) = true ∨
      (fin.substances.any (fun p => pyLower p.2.name == pyLower name)) = true := by
  subst hfin
  by_cases hb : (decide (0 < G.drugs.length) || decide (0 < G.substances.length)) = true
  · rw [if_pos hb]
    exact ensureMain_exists name _ now
  · rw [if_neg hb] at hfound
    exact absurd hfound hb

set_option maxHeartbeats 1000000 in
/-- C2 (amended): whenever a run ends with `found = true`, a main Substance
matching the canonical key or the search-term name exists in the accumulator.
When the main-substance step *creates* that Substance (no prior key or name
match), it links it by a `drug_has_substance` edge identity to every Drug.
When a matching Substance already exists, the step returns the accumulator
unchanged — it does not link pre-existing Substances to Drugs they were not
already linked to. -/
theorem C2_main_substance_amended :
    (∀ (name : String) (ie ii : Bool) (fd : FdaData) (rd : RxNormData)
        (lbl : String → Option LabelData) (chem : String → Option ChemicalData) (now : String),
      (getSubstanceData name ie ii fd rd lbl chem now).found = true →
      (alHas (getSubstanceData name ie ii fd rd lbl chem now).substances
          (mainSubstanceKey name) = true ∨
        ((getSubstanceData name ie ii fd rd lbl chem now).substances.any
          (fun p => pyLower p.2.name == pyLower name)) = true)) ∧
    (∀ (name : String) (g : GraphData) (now : String), EdgeIdsInv g →
      alHas g.substances (mainSubstanceKey name) = false →
      (g.substances.any (fun p => pyLower p.2.name == pyLower name)) = false →
      ∀ p ∈ g.drugs, ∃ e ∈ (ensureMainSubstance name g now).edges,
        e.uniqueId = EdgeT.uniqueId ⟨"drugs", p.1, "substances", mainSubstanceKey name,
          "drug_has_substance", []⟩) ∧
    (∀ (name : String) (g : GraphData) (now : String),
      (alHas g.substances (mainSubstanceKey name) = true ∨
        (g.substances.any (fun p => pyLower p.2.name == pyLower name)) = true) →
      ensureMainSubstance name g now = g) := by
  refine ⟨?_, ?_, ?_⟩
  · intro name ie ii fd rd lbl chem now hfound
    exact finalize_main_exists (enrichSubstances chem (fetchLabelsBySplId lbl (processNdcData fd.ndc { search_term := name } name now).2 (processRxnormData rd (if ie then processEventData fd.events (processEnforcementData fd.enforcement (processDrugsFdaData fd.drugsfda (processNdcData fd.ndc { search_term := name } name now).1 now)) else processEnforcementData fd.enforcement (processDrugsFdaData fd.drugsfda (processNdcData fd.ndc { search_term := name } name now).1 now)) ii)) now) _ name now rfl hfound
  · intro name g now hInv h1 h2 p hp
    simp only [ensureMainSubstance, h1, h2, Bool.false_eq_true, if_false]
    exact foldl_addEdge1_mem_uid
      (fun q : String × Drug => (⟨"drugs", q.1, "substances", mainSubstanceKey name,
        "drug_has_substance", []⟩ : EdgeT)) g.drugs
      { g with substances := alAdd g.substances (mainSubstanceKey name) { key := mainSubstanceKey name, name := pyUpper name, is_enriched := true, enriched_at := some now } }
      hInv p hp
  · intro name g now h
    rcases h with h | h
    · simp [ensureMainSubstance, h]
    · by_cases h1 : alHas g.substances (mainSubstanceKey name) = true
      · simp [ensureMainSubstance, h1]
      · simp [ensureMainSubstance, h1, h]

/-- Witness for C2 on small concrete runs and accumulators. -/
theorem C2_main_substance_amended_witness :
    (alHas (getSubstanceData "aspirin" false false { drugsfda := [{ openfda := { brand_name := ["X"], substance_name := ["aspirin"] } }] } {} (fun _ => none) (fun _ => none) "t").substances (mainSubstanceKey "aspirin") = true ∨
      ((getSubstanceData "aspirin" false false { drugsfda := [{ openfda := { brand_name := ["X"], substance_name := ["aspirin"] } }] } {} (fun _ => none) (fun _ => none) "t").substances.any (fun p => pyLower p.2.name == pyLower "aspirin")) = true) ∧
    (∃ e ∈ (ensureMainSubstance "w" { search_term := "w", drugs := [("x", { key := "x" })] } "t").edges,
      e.uniqueId = EdgeT.uniqueId ⟨"drugs", "x", "substances", mainSubstanceKey "w",
        "drug_has_substance", []⟩) ∧
    ensureMainSubstance "w" { search_term := "w", substances := [("w", { key := "w", name := "w" })] } "t" = { search_term := "w", substances := [("w", { key := "w", name := "w" })] } := by
  refine ⟨?_, ?_, ?_⟩
  · exact C2_main_substance_amended.1 "aspirin" false false _ {} (fun _ => none) (fun _ => none)
      "t" (by decide)
  · exact C2_main_substance_amended.2.1 "w" { search_term := "w", drugs := [("x", { key := "x" })] }
      "t" (by constructor <;> decide) (by decide) (by decide) ("x", { key := "x" }) (by decide)
  · exact C2_main_substance_amended.2.2 "w" _ "t" (Or.inl (by decide))

/-- Counterexample to C2 as stated: a run that ends `found = true` with a
pre-existing Substance under the canonical key skips the main-substance step's
linking entirely, so a Drug discovered in the same run (here `y`) has no
`drug_has_substance` edge to the main Substance — the only stored edge is the
one from `x` created during source interpretation. -/
theorem C2_main_substance_counterexample :
    (getSubstanceData "aspirin" false false
      { drugsfda := [{ openfda := { brand_name := ["X"], substance_name := ["aspirin"] } },
                     { openfda := { brand_name := ["Y"] } }] }
      {} (fun _ => none) (fun _ => none) "t").found = true ∧
    alHas (getSubstanceData "aspirin" false false
      { drugsfda := [{ openfda := { brand_name := ["X"], substance_name := ["aspirin"] } },
                     { openfda := { brand_name := ["Y"] } }] }
      {} (fun _ => none) (fun _ => none) "t").drugs "y" = true ∧
    alHas (getSubstanceData "aspirin" false false
      { drugsfda := [{ openfda := { brand_name := ["X"], substance_name := ["aspirin"] } },
                     { openfda := { brand_name := ["Y"] } }] }
      {} (fun _ => none) (fun _ => none) "t").substances "aspirin" = true ∧
    (getSubstanceData "aspirin" false false
      { drugsfda := [{ openfda := { brand_name := ["X"], substance_name := ["aspirin"] } },
                     { openfda := { brand_name := ["Y"] } }] }
      {} (fun _ => none) (fun _ => none) "t").edges
      = [⟨"drugs", "x", "substances", "aspirin", "drug_has_substance", []⟩] := by
  refine ⟨?_, ?_, ?_, ?_⟩ <;> decide

end PharmaNel

namespace PharmaNel

/-! ## C10 — drugs are immutable after creation (ndc-code union excepted) -/

theorem addManufacturer_drugs (n : String) (dk : Option String) (g : GraphData) :
    (addManufacturer n dk g).drugs = g.drugs := by
  unfold addManufacturer
  rcases h : generate_key [n] with _ | mk <;> rcases dk with _ | dk <;>
    simp only [] <;> try rfl
  · split <;> rfl
  · by_cases hh : alHas g.manufacturers mk = true <;> simp [hh, addEdge1_drugs]

theorem addRoute_drugs (n : String) (dk : Option String) (g : GraphData) :
    (addRoute n dk g).drugs = g.drugs := by
  unfold addRoute
  rcases h : generate_key [n] with _ | rk <;> rcases dk with _ | dk <;>
    simp only [] <;> try rfl
  · split <;> rfl
  · by_cases hh : alHas g.routes rk = true <;> simp [hh, addEdge1_drugs]

theorem addDosageForm_drugs (n : String) (dk : Option String) (g : GraphData) :
    (addDosageForm n dk g).drugs = g.drugs := by
  unfold addDosageForm
  rcases h : generate_key [n] with _ | fk <;> rcases dk with _ | dk <;>
    simp only [] <;> try rfl
  · split <;> rfl
  · by_cases hh : alHas g.dosage_forms fk = true <;> simp [hh, addEdge1_drugs]

theorem addPharmClass_drugs (n ct : String) (dk : Option String) (g : GraphData) :
    (addPharmClass n ct dk g).drugs = g.drugs := by
  unfold addPharmClass
  rcases h : generate_key [n] with _ | ck <;> rcases dk with _ | dk <;>
    simp only [] <;> try rfl
  · split <;> rfl
  · by_cases hh : alHas g.pharm_classes ck = true <;> simp [hh, addEdge1_drugs]

theorem addSubstance_drugs (n : String) (u r : Option String) (dk : Option String)
    (g : GraphData) : (addSubstance n u r dk g).drugs = g.drugs := by
  unfold addSubstance
  rcases h : generate_key [n] with _ | sk
  · rfl
  · rcases dk with _ | dk <;> by_cases hh : alHas g.substances sk = true <;>
      simp [hh, addEdge1_drugs]

theorem processSubmission_drugs (app : String) (dk : Option String) (g : GraphData)
    (s : SubmissionRec) : (processSubmission app dk g s).drugs = g.drugs := by
  unfold processSubmission
  rcases h : generate_key [app, s.submission_type, s.submission_number] with _ | ak
  · rfl
  · by_cases hh : alHas g.applications ak = true <;> rcases dk with _ | dk <;>
      simp [hh, addEdge1_drugs]

theorem processFdaProduct_drugs (app : String) (dk : Option String) (g : GraphData)
    (p : ProductRec) : (processFdaProduct app dk g p).drugs = g.drugs := by
  unfold processFdaProduct
  rcases h : generate_key [app, p.product_number] with _ | pk
  · rfl
  · by_cases hh : alHas g.products pk = true <;> rcases dk with _ | dk <;>
      simp [hh, addEdge1_drugs]

theorem processNdcPkg_drugs (dk : Option String) (g : GraphData) (pkg : NdcPackaging) :
    (processNdcPkg dk g pkg).drugs = g.drugs := by
  unfold processNdcPkg
  rcases h : generate_key [pkg.package_ndc] with _ | pk
  · rfl
  · by_cases hh : alHas g.products pk = true <;> rcases dk with _ | dk <;>
      simp [hh, addEdge1_drugs]

theorem processEventReaction_drugs (dk : Option String) (ch : String) (g : GraphData)
    (r : EventReaction) : (processEventReaction dk ch g r).drugs = g.drugs := by
  unfold processEventReaction
  by_cases hterm : r.reactionmeddrapt = ""
  · simp [hterm]
  · rcases h : generate_key [r.reactionmeddrapt] with _ | rk <;>
      simp only [hterm, if_false] <;> rcases dk with _ | dk <;>
      try rfl
    · by_cases hh : alHas g.reactions rk = true <;> simp [h, hh, addEdge1_drugs]
    · by_cases hh : alHas g.reactions rk = true <;> simp [h, hh, addEdge1_drugs]

theorem foldl_drugs_eq {β : Type} (f : GraphData → β → GraphData)
    (hf : ∀ g b, (f g b).drugs = g.drugs) (l : List β) (g : GraphData) :
    (l.foldl f g).drugs = g.drugs := by
  induction l generalizing g with
  | nil => rfl
  | cons b rest ih => rw [List.foldl_cons, ih, hf]

theorem foldl_drugs_ext {β : Type} (f : GraphData → β → GraphData)
    (hf : ∀ g b, ∃ l, (f g b).drugs = g.drugs ++ l) (l : List β) (g : GraphData) :
    ∃ m, (l.foldl f g).drugs = g.drugs ++ m := by
  induction l generalizing g with
  | nil => exact ⟨[], by simp⟩
  | cons b rest ih =>
      obtain ⟨m1, h1⟩ := hf g b
      obtain ⟨m2, h2⟩ := ih (f g b)
      exact ⟨m1 ++ m2, by rw [List.foldl_cons, h2, h1, List.append_assoc]⟩

end PharmaNel

namespace PharmaNel

theorem processDrugsFdaRecord_drugs_ext (now : String) (g : GraphData) (r : DrugsFdaRecord) :
    ∃ l, (processDrugsFdaRecord now g r).drugs = g.drugs ++ l := by
  unfold processDrugsFdaRecord
  simp only []
  rw [foldl_drugs_eq _ (fun g b => processFdaProduct_drugs _ _ g b),
      foldl_drugs_eq _ (fun g b => addPharmClass_drugs _ _ _ g),
      foldl_drugs_eq _ (fun g b => addPharmClass_drugs _ _ _ g),
      foldl_drugs_eq _ (fun g b => addDosageForm_drugs _ _ g),
      foldl_drugs_eq _ (fun g b => addRoute_drugs _ _ g),
      foldl_drugs_eq _ (fun g b => addSubstance_drugs _ _ _ _ g),
      foldl_drugs_eq _ (fun g b => addManufacturer_drugs _ _ g),
      foldl_drugs_eq _ (fun g b => processSubmission_drugs _ _ g b)]
  rcases hk : generate_key [pyOrS r.application_number (r.openfda.brand_name.headD "")]
    with _ | dk
  · exact ⟨[], by simp⟩
  · by_cases hh : alHas g.drugs dk = true
    · exact ⟨[], by simp [hh]⟩
    · simp only [hh, Bool.false_eq_true, if_false]
      exact ⟨_, rfl⟩

theorem processNdcRecord_drugs_ext (sl now : String) (st : GraphData × List (String × String))
    (r : NdcRecord) : ∃ l, (processNdcRecord sl now st r).1.drugs = st.1.drugs ++ l := by
  unfold processNdcRecord
  by_cases hp : r.product_ndc = ""
  · exact ⟨[], by simp [hp]⟩
  · simp only [hp, if_false]
    rw [foldl_drugs_eq _ (fun g b => processNdcPkg_drugs _ g b)]
    rcases hk : generate_key [r.product_ndc] with _ | dk
    · exact ⟨[], by simp⟩
    · by_cases hh : alHas st.1.drugs dk = true
      · exact ⟨[], by simp [hh]⟩
      · simp only [hh, Bool.false_eq_true, if_false]
        exact ⟨_, rfl⟩

theorem processEnforcementRecord_drugs_ext (g : GraphData) (r : EnforcementRecord) :
    ∃ l, (processEnforcementRecord g r).drugs = g.drugs ++ l := by
  unfold processEnforcementRecord
  by_cases hn : firstName r.openfda.brand_name r.openfda.generic_name "" = ""
  · exact ⟨[], by simp [hn]⟩
  · simp only [hn, if_false]
    rw [foldl_drugs_eq _ (fun g b => addRoute_drugs _ _ g),
        foldl_drugs_eq _ (fun g b => addSubstance_drugs _ _ _ _ g),
        foldl_drugs_eq _ (fun g b => addManufacturer_drugs _ _ g)]
    rcases hk : generate_key [firstName r.openfda.brand_name r.openfda.generic_name ""]
      with _ | dk
    · exact ⟨[], by simp⟩
    · by_cases hh : alHas g.drugs dk = true
      · exact ⟨[], by simp [hh]⟩
      · simp only [hh, Bool.false_eq_true, if_false]
        exact ⟨_, rfl⟩

theorem processEventDrug_drugs_ext (rs : List EventReaction) (g : GraphData) (d : EventDrug) :
    ∃ l, (processEventDrug rs g d).drugs = g.drugs ++ l := by
  unfold processEventDrug
  by_cases hn : firstName d.openfda.brand_name d.openfda.generic_name d.medicinalproduct = ""
  · exact ⟨[], by simp [hn]⟩
  · simp only [hn, if_false]
    rw [foldl_drugs_eq _ (fun g b => processEventReaction_drugs _ _ g b),
        foldl_drugs_eq _ (fun g b => addRoute_drugs _ _ g),
        foldl_drugs_eq _ (fun g b => addSubstance_drugs _ _ _ _ g)]
    rcases hk : generate_key [firstName d.openfda.brand_name d.openfda.generic_name
      d.medicinalproduct] with _ | dk
    · exact ⟨[], by simp⟩
    · by_cases hh : alHas g.drugs dk = true
      · exact ⟨[], by simp [hh]⟩
      · simp only [hh, Bool.false_eq_true, if_false]
        exact ⟨_, rfl⟩

theorem processEventRecord_drugs_ext (g : GraphData) (r : EventRecord) :
    ∃ l, (processEventRecord g r).drugs = g.drugs ++ l := by
  unfold processEventRecord
  exact foldl_drugs_ext _ (fun g b => processEventDrug_drugs_ext _ g b) _ g

theorem findMainDrugKey_drugs_ext (rd : RxNormData) (g : GraphData) :
    ∃ l, (findMainDrugKey rd g).1.drugs = g.drugs ++ l := by
  unfold findMainDrugKey
  simp only []
  split
  · exact ⟨[], by simp⟩
  · split
    · split
      · split
        · exact ⟨[], by simp⟩
        · exact ⟨_, rfl⟩
      · exact ⟨[], by simp⟩
    · exact ⟨[], by simp⟩

theorem processInteraction_drugs_ext (sk srx : Option String) (sn : String) (g : GraphData)
    (i : RxInteraction) : ∃ l, (processInteraction sk srx sn g i).drugs = g.drugs ++ l := by
  unfold processInteraction
  by_cases hd : i.description = ""
  · exact ⟨[], by simp [hd]⟩
  · simp only [hd, if_false]
    rcases hk : generate_key [pyOrOS srx sn,
        pyOrS i.minConceptItem.rxcui i.minConceptItem.name, "interaction"] with _ | ik
    · exact ⟨[], by simp⟩
    · simp only []
      by_cases htn : i.minConceptItem.name = ""
      · refine ⟨[], ?_⟩
        simp only [htn, if_pos rfl]
        by_cases hI : alHas g.interactions ik = true <;> rcases sk with _ | sk <;>
          simp [hI, addEdge1_drugs]
      · simp only [htn, if_false]
        rcases hk2 : generate_key [i.minConceptItem.name] with _ | tk
        · refine ⟨[], ?_⟩
          by_cases hI : alHas g.interactions ik = true <;> rcases sk with _ | sk <;>
            simp [hI, addEdge1_drugs]
        · by_cases hT : alHas g.drugs tk = true
          · refine ⟨[], ?_⟩
            by_cases hI : alHas g.interactions ik = true <;> rcases sk with _ | sk <;>
              simp [hI, hT, addEdge1_drugs]
          · refine ⟨[(tk, { key := tk, rxcui := if i.minConceptItem.rxcui = "" then []
                else [i.minConceptItem.rxcui], source := "rxnorm_interaction" })], ?_⟩
            by_cases hI : alHas g.interactions ik = true <;> rcases sk with _ | sk <;>
              simp [hI, hT, addEdge1_drugs, alAdd]

end PharmaNel

namespace PharmaNel

theorem foldl_pair_drugs_ext {β γ : Type} (f : GraphData × γ → β → GraphData × γ)
    (hf : ∀ st b, ∃ l, (f st b).1.drugs = st.1.drugs ++ l) (l : List β)
    (st : GraphData × γ) : ∃ m, (l.foldl f st).1.drugs = st.1.drugs ++ m := by
  induction l generalizing st with
  | nil => exact ⟨[], by simp⟩
  | cons b bs ih =>
      rcases hf st b with ⟨l1, h1⟩
      rcases ih (f st b) with ⟨l2, h2⟩
      exact ⟨l1 ++ l2, by rw [List.foldl_cons, h2, h1, List.append_assoc]⟩

theorem processNdcData_drugs_ext (recs : List NdcRecord) (g : GraphData) (s now : String) :
    ∃ l, (processNdcData recs g s now).1.drugs = g.drugs ++ l := by
  unfold processNdcData
  exact foldl_pair_drugs_ext _ (fun st b => processNdcRecord_drugs_ext _ _ st b) recs (g, [])

theorem processDrugsFdaData_drugs_ext (recs : List DrugsFdaRecord) (g : GraphData)
    (now : String) : ∃ l, (processDrugsFdaData recs g now).drugs = g.drugs ++ l := by
  unfold processDrugsFdaData
  exact foldl_drugs_ext _ (fun g b => processDrugsFdaRecord_drugs_ext now g b) recs g

theorem processEnforcementData_drugs_ext (recs : List EnforcementRecord) (g : GraphData) :
    ∃ l, (processEnforcementData recs g).drugs = g.drugs ++ l := by
  unfold processEnforcementData
  exact foldl_drugs_ext _ (fun g b => processEnforcementRecord_drugs_ext g b) recs g

theorem processEventData_drugs_ext (recs : List EventRecord) (g : GraphData) :
    ∃ l, (processEventData recs g).drugs = g.drugs ++ l := by
  unfold processEventData
  exact foldl_drugs_ext _ (fun g b => processEventRecord_drugs_ext g b) recs g

theorem fetchLabels_drugs (ll : String → Option LabelData) (m : List (String × String))
    (g : GraphData) : (fetchLabelsBySplId ll m g).drugs = g.drugs := by
  unfold fetchLabelsBySplId
  by_cases hm : m = []
  · simp [hm]
  · rw [if_neg hm]
    apply foldl_drugs_eq
    intro gy p
    rcases ll p.2 with _ | ld
    · rfl
    · simp only []
      rcases generate_key [p.2] with _ | lk
      · rfl
      · by_cases hh : alHas gy.drug_labels lk = true
        · simp [hh]
        · simp [hh, addEdge1_drugs]

theorem enrichSubstances_drugs (cl : String → Option ChemicalData) (g : GraphData)
    (now : String) : (enrichSubstances cl g now).drugs = g.drugs := by
  unfold enrichSubstances
  by_cases h : g.substances = [] <;> simp [h]

theorem processInteractions_drugs_ext (il : List RxInteraction) (sk srx : Option String)
    (sn : String) (g : GraphData) :
    ∃ l, (processInteractions il sk srx sn g).drugs = g.drugs ++ l := by
  unfold processInteractions
  exact foldl_drugs_ext _ (fun g b => processInteraction_drugs_ext sk srx sn g b) il g

/-- The ingredient loop of `_process_rxnorm_data` in isolation. -/
def rxnormIngredients (rd : RxNormData) (mdk : Option String) (g : GraphData) : GraphData :=
  rd.ingredients.foldl (fun g ing =>
    if ing.name ≠ "" then addSubstance ing.name none ing.rxcui mdk g else g) g

/-- The brand loop of `_process_rxnorm_data` in isolation. -/
def rxnormBrands (rd : RxNormData) (g : GraphData) : GraphData :=
  rd.brands.foldl (fun g b =>
    if b.name = "" then g
    else
      match generate_key [b.name] with
      | some dk =>
          if alHas g.drugs dk then g
          else
            let entry : Drug :=
              { key := dk, brand_names := [b.name], rxcui := [b.rxcui], source := "rxnorm" }
            { g with drugs := alAdd g.drugs dk entry }
      | none => g) g

/-- Everything `_process_rxnorm_data` does before the final ndc-code union,
paired with the main-drug key it resolved. -/
def rxnormCore (rd : RxNormData) (g : GraphData) (ii : Bool) : GraphData × Option String :=
  let gm := findMainDrugKey rd g
  let g := rxnormBrands rd (rxnormIngredients rd gm.2 gm.1)
  ((if ii then processInteractions rd.interactions gm.2 rd.rxcui rd.name g else g), gm.2)

/-- The final ndc-code union step of `_process_rxnorm_data` in isolation. -/
def rxnormFinal (ndc : List String) (st : GraphData × Option String) : GraphData :=
  if ndc ≠ [] then
    match st.2 with
    | some mk =>
        if alHas st.1.drugs mk then
          { st.1 with drugs := alSet st.1.drugs mk (fun d =>
              { d with ndc_codes := (d.ndc_codes ++ ndc).dedup }) }
        else st.1
    | none => st.1
  else st.1

theorem processRxnormData_eq (rd : RxNormData) (g : GraphData) (ii : Bool) :
    processRxnormData rd g ii =
      if ¬ rd.found = true then g
      else rxnormFinal rd.ndc_codes (rxnormCore rd g ii) := rfl

/-- No later stage ever replaces or edits a drug stored under a key. -/
def DrugsPreserved (m m' : List (String × Drug)) : Prop :=
  ∀ k d, alGet m k = some d → alGet m' k = some d

/-- Two drugs that agree on every field except possibly `ndc_codes`. -/
def SameButNdc (d d' : Drug) : Prop :=
  d'.key = d.key ∧ d'.application_number = d.application_number ∧
  d'.brand_names = d.brand_names ∧ d'.generic_names = d.generic_names ∧
  d'.rxcui = d.rxcui ∧ d'.spl_id = d.spl_id ∧ d'.sponsor_name = d.sponsor_name ∧
  d'.drug_type = d.drug_type ∧ d'.source = d.source ∧ d'.is_enriched = d.is_enriched ∧
  d'.is_alias = d.is_alias ∧ d'.enriched_at = d.enriched_at ∧
  d'.created_at = d.created_at ∧ d'.updated_at = d.updated_at

/-- Every stored drug survives with every field intact except that
`ndc_codes` may grow, and only by elements of `extra`. -/
def DrugsUnion (extra : List String) (m m' : List (String × Drug)) : Prop :=
  ∀ k d, alGet m k = some d → ∃ d', alGet m' k = some d' ∧ SameButNdc d d' ∧
    (∀ x ∈ d.ndc_codes, x ∈ d'.ndc_codes) ∧
    (∀ x ∈ d'.ndc_codes, x ∈ d.ndc_codes ∨ x ∈ extra)

theorem sameButNdc_refl (d : Drug) : SameButNdc d d :=
  ⟨rfl, rfl, rfl, rfl, rfl, rfl, rfl, rfl, rfl, rfl, rfl, rfl, rfl, rfl⟩

theorem drugsPreserved_of_append (m l : List (String × Drug)) :
    DrugsPreserved m (m ++ l) := by
  intro k d h
  rw [alGet_of_isSome_append m l k (by simp [h])]
  exact h

theorem drugsUnion_refl (extra : List String) (m : List (String × Drug)) :
    DrugsUnion extra m m :=
  fun _ d h => ⟨d, h, sameButNdc_refl d, fun _ hx => hx, fun _ hx => Or.inl hx⟩

theorem drugsUnion_of_preserved (extra : List String) (m m' : List (String × Drug))
    (h : DrugsPreserved m m') : DrugsUnion extra m m' :=
  fun k d hk => ⟨d, h k d hk, sameButNdc_refl d, fun _ hx => hx, fun _ hx => Or.inl hx⟩

theorem rxnormIngredients_drugs (rd : RxNormData) (mdk : Option String) (g : GraphData) :
    (rxnormIngredients rd mdk g).drugs = g.drugs := by
  unfold rxnormIngredients
  apply foldl_drugs_eq
  intro gy ing
  by_cases hn : ing.name ≠ "" <;> simp [hn, addSubstance_drugs]

theorem rxnormBrands_drugs_ext (rd : RxNormData) (g : GraphData) :
    ∃ l, (rxnormBrands rd g).drugs = g.drugs ++ l := by
  unfold rxnormBrands
  apply foldl_drugs_ext
  intro gy b
  by_cases hb : b.name = ""
  · exact ⟨[], by simp [hb]⟩
  · simp only [hb, if_false]
    rcases hk : generate_key [b.name] with _ | dk
    · exact ⟨[], by simp⟩
    · by_cases hh : alHas gy.drugs dk = true
      · exact ⟨[], by simp [hh]⟩
      · simp only [hh, Bool.false_eq_true, if_false]
        exact ⟨_, rfl⟩

theorem rxnormCore_drugs_ext (rd : RxNormData) (g : GraphData) (ii : Bool) :
    ∃ l, (rxnormCore rd g ii).1.drugs = g.drugs ++ l := by
  unfold rxnormCore
  simp only []
  obtain ⟨l1, h1⟩ := findMainDrugKey_drugs_ext rd g
  obtain ⟨l2, h2⟩ := rxnormBrands_drugs_ext rd
    (rxnormIngredients rd (findMainDrugKey rd g).2 (findMainDrugKey rd g).1)
  by_cases hii : ii = true
  · simp only [hii, if_true]
    obtain ⟨l3, h3⟩ := processInteractions_drugs_ext rd.interactions
      (findMainDrugKey rd g).2 rd.rxcui rd.name
      (rxnormBrands rd (rxnormIngredients rd (findMainDrugKey rd g).2 (findMainDrugKey rd g).1))
    refine ⟨l1 ++ (l2 ++ l3), ?_⟩
    rw [h3, h2, rxnormIngredients_drugs, h1, List.append_assoc, List.append_assoc]
  · simp only [hii, Bool.false_eq_true, if_false]
    refine ⟨l1 ++ l2, ?_⟩
    rw [h2, rxnormIngredients_drugs, h1, List.append_assoc]

theorem rxnormFinal_union (ndc : List String) (m : List (String × Drug))
    (st : GraphData × Option String) (hext : ∃ l, st.1.drugs = m ++ l) :
    DrugsUnion ndc m (rxnormFinal ndc st).drugs := by
  obtain ⟨g2, mko⟩ := st
  rcases hext with ⟨l, hl⟩
  simp only [] at hl
  have hpres : ∀ k d, alGet m k = some d → alGet g2.drugs k = some d := by
    intro k d h
    rw [hl, alGet_of_isSome_append m l k (by simp [h])]
    exact h
  unfold rxnormFinal
  by_cases hnc : ndc ≠ []
  · rw [if_pos hnc]
    simp only []
    rcases mko with _ | mk
    · exact fun k d h => ⟨d, hpres k d h, sameButNdc_refl d, fun _ hx => hx,
        fun _ hx => Or.inl hx⟩
    · by_cases hh : alHas g2.drugs mk = true
      · simp only [hh, eq_self_iff_true, if_true]
        intro k d h
        have h1 := hpres k d h
        by_cases hk : k = mk
        · refine ⟨{ d with ndc_codes := (d.ndc_codes ++ ndc).dedup }, ?_, ?_, ?_, ?_⟩
          · show alGet (alSet g2.drugs mk _) k = _
            rw [alGet_alSet, if_pos hk, h1]
            rfl
          · exact ⟨rfl, rfl, rfl, rfl, rfl, rfl, rfl, rfl, rfl, rfl, rfl, rfl, rfl, rfl⟩
          · intro x hx
            exact List.mem_dedup.mpr (List.mem_append_left _ hx)
          · intro x hx
            exact List.mem_append.mp (List.mem_dedup.mp hx)
        · refine ⟨d, ?_, sameButNdc_refl d, fun _ hx => hx, fun _ hx => Or.inl hx⟩
          show alGet (alSet g2.drugs mk _) k = some d
          rw [alGet_alSet, if_neg hk]
          exact h1
      · simp only [hh, if_false]
        exact fun k d h => ⟨d, hpres k d h, sameButNdc_refl d, fun _ hx => hx,
          fun _ hx => Or.inl hx⟩
  · rw [if_neg hnc]
    exact fun k d h => ⟨d, hpres k d h, sameButNdc_refl d, fun _ hx => hx,
      fun _ hx => Or.inl hx⟩

theorem processRxnormData_drugs_union (rd : RxNormData) (g : GraphData) (ii : Bool) :
    DrugsUnion rd.ndc_codes g.drugs (processRxnormData rd g ii).drugs := by
  rw [processRxnormData_eq]
  by_cases hf : rd.found = true
  · rw [if_neg (by simp [hf])]
    exact rxnormFinal_union _ _ _ (rxnormCore_drugs_ext rd g ii)
  · rw [if_pos hf]
    exact drugsUnion_refl _ _

end PharmaNel

namespace PharmaNel

/-- A graph state with one stored drug, exercising the rxnorm ndc union. -/
def c10Drug : Drug := { key := "a", ndc_codes := ["x"], rxcui := ["r1"], source := "ndc" }

def c10Graph : GraphData := { search_term := "t", drugs := [("a", c10Drug)] }

def c10Rx : RxNormData :=
  { found := true, rxcui := some "r1", name := "A", ndc_codes := ["x", "y"] }

/-- C10: within one aggregation run a drug stored under a key is never
replaced and none of its fields change in a later stage — the ndc, drugsfda,
enforcement and event stages preserve every existing binding exactly (every
creation site first checks the key is absent, so they only append new
bindings), the label, chemical-enrichment and main-substance stages leave the
drug map untouched, and the rxnorm stage preserves every binding up to
`ndc_codes`, which can only grow and only by codes drawn from the rxnorm
payload's ndc list; in particular source, is_enriched, names and application
number never change after creation. -/
theorem C10_drug_immutability :
    (∀ (recs : List NdcRecord) (g : GraphData) (s now : String),
      DrugsPreserved g.drugs (processNdcData recs g s now).1.drugs) ∧
    (∀ (recs : List DrugsFdaRecord) (g : GraphData) (now : String),
      DrugsPreserved g.drugs (processDrugsFdaData recs g now).drugs) ∧
    (∀ (recs : List EnforcementRecord) (g : GraphData),
      DrugsPreserved g.drugs (processEnforcementData recs g).drugs) ∧
    (∀ (recs : List EventRecord) (g : GraphData),
      DrugsPreserved g.drugs (processEventData recs g).drugs) ∧
    (∀ (rd : RxNormData) (g : GraphData) (ii : Bool),
      DrugsUnion rd.ndc_codes g.drugs (processRxnormData rd g ii).drugs) ∧
    (∀ (ll : String → Option LabelData) (m : List (String × String)) (g : GraphData),
      (fetchLabelsBySplId ll m g).drugs = g.drugs) ∧
    (∀ (cl : String → Option ChemicalData) (g : GraphData) (now : String),
      (enrichSubstances cl g now).drugs = g.drugs) ∧
    (∀ (s : String) (g : GraphData) (now : String),
      (ensureMainSubstance s g now).drugs = g.drugs) := by
  refine ⟨?_, ?_, ?_, ?_, ?_, ?_, ?_, ?_⟩
  · intro recs g s now
    obtain ⟨l, hl⟩ := processNdcData_drugs_ext recs g s now
    rw [hl]
    exact drugsPreserved_of_append _ _
  · intro recs g now
    obtain ⟨l, hl⟩ := processDrugsFdaData_drugs_ext recs g now
    rw [hl]
    exact drugsPreserved_of_append _ _
  · intro recs g
    obtain ⟨l, hl⟩ := processEnforcementData_drugs_ext recs g
    rw [hl]
    exact drugsPreserved_of_append _ _
  · intro recs g
    obtain ⟨l, hl⟩ := processEventData_drugs_ext recs g
    rw [hl]
    exact drugsPreserved_of_append _ _
  · exact processRxnormData_drugs_union
  · exact fetchLabels_drugs
  · exact enrichSubstances_drugs
  · exact ensureMain_drugs

/-- A concrete run of the rxnorm conjunct of C10: the stored drug survives
with every field intact except a grown ndc-code list. -/
theorem C10_drug_immutability_witness :
    alGet c10Graph.drugs "a" = some c10Drug ∧
    (∃ d', alGet (processRxnormData c10Rx c10Graph false).drugs "a" = some d' ∧
      SameButNdc c10Drug d' ∧
      (∀ x ∈ c10Drug.ndc_codes, x ∈ d'.ndc_codes) ∧
      (∀ x ∈ d'.ndc_codes, x ∈ c10Drug.ndc_codes ∨ x ∈ c10Rx.ndc_codes)) :=
  ⟨rfl, C10_drug_immutability.2.2.2.2.1 c10Rx c10Graph false "a" c10Drug rfl⟩

end PharmaNel

namespace PharmaNel

theorem colHas_eq_mem (s : Store) (n k : String) :
    colHas s n k = true ↔ k ∈ storeKeys s n := by
  simp only [colHas, storeKeys, List.any_eq_true, List.mem_map, beq_iff_eq]

theorem alHas_append_left {α : Type} (m l : List (String × α)) (k : String)
    (h : alHas m k = true) : alHas (m ++ l) k = true := by
  unfold alHas at h ⊢
  rw [alGet_of_isSome_append m l k h]
  exact h

theorem alGet_none_of_not_has {α : Type} (m : List (String × α)) (k : String)
    (h : alHas m k = false) : alGet m k = none := by
  cases hg : alGet m k
  · rfl
  · rw [alHas, hg] at h
    simp at h

theorem colDocs_append (s : Store) (n : String) (ds : List Doc) (m : String)
    (h : alHas s n = false) :
    colDocs (s ++ [(n, ds)]) m = if m = n then ds else colDocs s m := by
  unfold colDocs
  cases hg : alGet s m with
  | some docs =>
      rw [alGet_of_isSome_append s _ m (by simp [hg]), hg]
      have hmn : ¬ m = n := by
        rintro rfl
        rw [alGet_none_of_not_has s m h] at hg
        exact Option.noConfusion hg
      simp [hmn]
  | none =>
      have hf : List.find? (fun p => p.1 == m) s = none := by
        unfold alGet at hg
        rcases hfind : List.find? (fun p => p.1 == m) s with _ | x
        · exact hfind
        · rw [hfind] at hg
          simp at hg
      unfold alGet
      rw [List.find?_append, hf]
      simp only [Option.none_or]
      by_cases hmn : m = n
      · subst hmn
        simp [List.find?]
      · have hnm : ¬ (n == m) = true := by simp [Ne.symm hmn]
        simp [List.find?, hnm, hmn]

theorem storeKeys_ensureCollection (s : Store) (n m : String) :
    storeKeys (ensureCollection s n) m = storeKeys s m := by
  unfold ensureCollection
  by_cases h : alHas s n = true
  · rw [if_pos h]
  · rw [if_neg h]
    unfold storeKeys
    rw [colDocs_append s n [] m (by simpa using h)]
    by_cases hmn : m = n
    · subst hmn
      unfold colDocs
      rw [alGet_none_of_not_has s m (by simpa using h)]
      simp
    · rw [if_neg hmn]

theorem alHas_ensureCollection_self (s : Store) (n : String) :
    alHas (ensureCollection s n) n = true := by
  unfold ensureCollection
  by_cases h : alHas s n = true
  · rw [if_pos h]
    exact h
  · rw [if_neg h]
    have hf : List.find? (fun p => p.1 == n) s = none := by
      have hn := alGet_none_of_not_has s n (by simpa using h)
      unfold alGet at hn
      rcases hfind : List.find? (fun p => p.1 == n) s with _ | x
      · exact hfind
      · rw [hfind] at hn
        simp at hn
    unfold alHas alGet
    rw [List.find?_append, hf]
    simp [List.find?]

theorem alHas_ensureCollection_mono (s : Store) (n m : String)
    (h : alHas s m = true) : alHas (ensureCollection s n) m = true := by
  unfold ensureCollection
  by_cases hn : alHas s n = true
  · rw [if_pos hn]
    exact h
  · rw [if_neg hn]
    exact alHas_append_left s _ m h

theorem alHas_alSet {α : Type} (m : List (String × α)) (k : String) (f : α → α)
    (k' : String) : alHas (alSet m k f) k' = alHas m k' := by
  unfold alHas
  rw [alGet_alSet]
  by_cases h : k' = k <;> simp [h]

theorem alHas_colUpdate (s : Store) (n : String) (d : Doc) (m : String) :
    alHas (colUpdate s n d) m = alHas s m := by
  unfold colUpdate
  exact alHas_alSet s n _ m

theorem storeKeys_colInsert (s : Store) (n : String) (d : Doc) (m : String) :
    storeKeys (colInsert s n d) m =
      if m = n then storeKeys s m ++ [d.docKey] else storeKeys s m := by
  unfold colInsert
  by_cases h : alHas s n = true
  · rw [if_pos h]
    unfold storeKeys colDocs
    rw [alGet_alSet]
    by_cases hmn : m = n
    · subst hmn
      rcases hg : alGet s m with _ | docs
      · rw [alHas, hg] at h
        simp at h
      · simp [hg]
    · simp [hmn]
  · rw [if_neg h]
    unfold storeKeys
    rw [colDocs_append s n [d] m (by simpa using h)]
    by_cases hmn : m = n
    · subst hmn
      unfold colDocs
      rw [alGet_none_of_not_has s m (by simpa using h)]
      simp
    · simp [hmn]

theorem alHas_colInsert (s : Store) (n : String) (d : Doc) (m : String)
    (h : alHas s m = true) : alHas (colInsert s n d) m = true := by
  unfold colInsert
  by_cases hn : alHas s n = true
  · rw [if_pos hn, alHas_alSet]
    exact h
  · rw [if_neg hn]
    exact alHas_append_left s _ m h

/-- One store extends another: every collection keeps its key column as a
prefix, and no existing collection disappears. -/
def StoreLe (s s' : Store) : Prop :=
  (∀ m, ∃ l, storeKeys s' m = storeKeys s m ++ l) ∧
  (∀ m, alHas s m = true → alHas s' m = true)

theorem storeLe_refl (s : Store) : StoreLe s s :=
  ⟨fun m => ⟨[], by simp⟩, fun _ h => h⟩

theorem storeLe_trans {s t u : Store} (h1 : StoreLe s t) (h2 : StoreLe t u) :
    StoreLe s u := by
  refine ⟨fun m => ?_, fun m h => h2.2 m (h1.2 m h)⟩
  obtain ⟨l1, e1⟩ := h1.1 m
  obtain ⟨l2, e2⟩ := h2.1 m
  exact ⟨l1 ++ l2, by rw [e2, e1, List.append_assoc]⟩

theorem storeLe_colHas {s s' : Store} (h : StoreLe s s') (m k : String)
    (hk : colHas s m k = true) : colHas s' m k = true := by
  rw [colHas_eq_mem] at hk ⊢
  obtain ⟨l, e⟩ := h.1 m
  rw [e]
  exact List.mem_append_left _ hk

theorem storeLe_colUpdate (s : Store) (n : String) (d : Doc) :
    StoreLe s (colUpdate s n d) :=
  ⟨fun m => ⟨[], by rw [storeKeys_colUpdate]; simp⟩,
   fun m h => by rw [alHas_colUpdate]; exact h⟩

theorem storeLe_colInsert (s : Store) (n : String) (d : Doc) :
    StoreLe s (colInsert s n d) := by
  refine ⟨fun m => ?_, fun m h => alHas_colInsert s n d m h⟩
  rw [storeKeys_colInsert]
  by_cases hmn : m = n
  · rw [if_pos hmn]
    exact ⟨[d.docKey], rfl⟩
  · rw [if_neg hmn]
    exact ⟨[], by simp⟩

theorem storeLe_ensureCollection (s : Store) (n : String) :
    StoreLe s (ensureCollection s n) :=
  ⟨fun m => ⟨[], by rw [storeKeys_ensureCollection]; simp⟩,
   fun m h => alHas_ensureCollection_mono s n m h⟩

end PharmaNel


namespace PharmaNel

theorem colHas_keys_eq {s s' : Store} {m : String} (h : storeKeys s' m = storeKeys s m)
    (k : String) : colHas s' m k = colHas s m k := by
  have h1 : colHas s' m k = true ↔ colHas s m k = true := by
    rw [colHas_eq_mem, colHas_eq_mem, h]
  cases hb : colHas s m k
  · cases hb' : colHas s' m k
    · rfl
    · have h2 := h1.mp hb'
      rw [hb] at h2
      exact h2.symm
  · exact h1.mpr hb

theorem countP_cons_key_true (d : Doc) (rest : List Doc) (h : d.docKey ≠ "") (count : Nat) :
    count + List.countP (fun x => decide (x.docKey ≠ "")) (d :: rest)
      = (count + 1) + List.countP (fun x => decide (x.docKey ≠ "")) rest := by
  rw [List.countP_cons, show (decide (d.docKey ≠ "")) = true by simp [h], if_pos rfl]
  omega

theorem countP_cons_key_false (d : Doc) (rest : List Doc) (h : ¬ d.docKey ≠ "")
    (count : Nat) :
    count + List.countP (fun x => decide (x.docKey ≠ "")) (d :: rest)
      = count + List.countP (fun x => decide (x.docKey ≠ "")) rest := by
  rw [List.countP_cons, show (decide (d.docKey ≠ "")) = false by simpa using h]
  simp

theorem pvLoop_ok (n : String) (docs : List Doc) :
    ∀ (store : Store) (count : Nat), ∃ s',
      persistVerticesLoop okBehavior n store count docs
        = .ok (s', count + docs.countP (fun d => d.docKey ≠ "")) ∧
      StoreLe store s' ∧
      (∀ d ∈ docs, d.docKey ≠ "" → colHas s' n d.docKey = true) := by
  induction docs with
  | nil =>
      intro store count
      exact ⟨store, by simp [persistVerticesLoop], storeLe_refl store, by simp⟩
  | cons d rest ih =>
      intro store count
      by_cases hk : d.docKey ≠ ""
      · by_cases hh : colHas store n d.docKey = true
        · obtain ⟨s', he, hle, hcomp⟩ := ih (colUpdate store n d) (count + 1)
          refine ⟨s', ?_, storeLe_trans (storeLe_colUpdate store n d) hle, ?_⟩
          · simp only [persistVerticesLoop]
            rw [if_pos hk, if_pos hh, countP_cons_key_true d rest hk count]
            exact he
          · intro d0 hd0 hk0
            rcases List.mem_cons.mp hd0 with rfl | hd0
            · refine storeLe_colHas hle n d0.docKey ?_
              rw [colHas_keys_eq (storeKeys_colUpdate store n _ n)]
              exact hh
            · exact hcomp d0 hd0 hk0
        · obtain ⟨s', he, hle, hcomp⟩ := ih (colInsert store n d) (count + 1)
          refine ⟨s', ?_, storeLe_trans (storeLe_colInsert store n d) hle, ?_⟩
          · simp only [persistVerticesLoop]
            rw [if_pos hk, if_neg hh, countP_cons_key_true d rest hk count]
            simp only [okBehavior, safeInsertRes]
            exact he
          · intro d0 hd0 hk0
            rcases List.mem_cons.mp hd0 with rfl | hd0
            · refine storeLe_colHas hle n d0.docKey ?_
              rw [colHas_eq_mem, storeKeys_colInsert]
              simp
            · exact hcomp d0 hd0 hk0
      · obtain ⟨s', he, hle, hcomp⟩ := ih store count
        refine ⟨s', ?_, hle, ?_⟩
        · simp only [persistVerticesLoop]
          rw [if_neg hk, countP_cons_key_false d rest hk count]
          exact he
        · intro d0 hd0 hk0
          rcases List.mem_cons.mp hd0 with rfl | hd0
          · exact absurd hk0 hk
          · exact hcomp d0 hd0 hk0

theorem pvLoop_all_present (n : String) (docs : List Doc) :
    ∀ (store : Store) (count : Nat),
      (∀ d ∈ docs, d.docKey ≠ "" → colHas store n d.docKey = true) →
      ∃ s', persistVerticesLoop okBehavior n store count docs
          = .ok (s', count + docs.countP (fun d => d.docKey ≠ "")) ∧
        (∀ m, storeKeys s' m = storeKeys store m) ∧
        (∀ m, alHas store m = true → alHas s' m = true) := by
  induction docs with
  | nil =>
      intro store count _
      exact ⟨store, by simp [persistVerticesLoop], fun m => rfl, fun _ h => h⟩
  | cons d rest ih =>
      intro store count h
      by_cases hk : d.docKey ≠ ""
      · have hh := h d (List.mem_cons_self d rest) hk
        obtain ⟨s', he, hkeys, hhas⟩ := ih (colUpdate store n d) (count + 1)
          (fun d0 hd0 hk0 => by
            rw [colHas_keys_eq (storeKeys_colUpdate store n d n)]
            exact h d0 (List.mem_cons_of_mem d hd0) hk0)
        refine ⟨s', ?_, ?_, ?_⟩
        · simp only [persistVerticesLoop]
          rw [if_pos hk, if_pos hh, countP_cons_key_true d rest hk count]
          exact he
        · intro m
          rw [hkeys m, storeKeys_colUpdate]
        · intro m hm
          exact hhas m (by rw [alHas_colUpdate]; exact hm)
      · obtain ⟨s', he, hkeys, hhas⟩ := ih store count
          (fun d0 hd0 hk0 => h d0 (List.mem_cons_of_mem d hd0) hk0)
        refine ⟨s', ?_, hkeys, hhas⟩
        simp only [persistVerticesLoop]
        rw [if_neg hk, countP_cons_key_false d rest hk count]
        exact he

theorem peLoop_ok (n : String) (docs : List Doc) :
    ∀ (store : Store) (count : Nat), ∃ s' c',
      persistEdgesLoop okBehavior n store count docs = .ok (s', c') ∧
      StoreLe store s' ∧
      (∀ d ∈ docs, d.docKey ≠ "" → colHas s' n d.docKey = true) := by
  induction docs with
  | nil =>
      intro store count
      exact ⟨store, count, by simp [persistEdgesLoop], storeLe_refl store, by simp⟩
  | cons d rest ih =>
      intro store count
      by_cases hk : d.docKey ≠ ""
      · by_cases hh : colHas store n d.docKey = true
        · obtain ⟨s', c', he, hle, hcomp⟩ := ih store count
          refine ⟨s', c', ?_, hle, ?_⟩
          · simp only [persistEdgesLoop]
            rw [if_pos hk, if_pos hh]
            exact he
          · intro d0 hd0 hk0
            rcases List.mem_cons.mp hd0 with rfl | hd0
            · exact storeLe_colHas hle n d0.docKey hh
            · exact hcomp d0 hd0 hk0
        · obtain ⟨s', c', he, hle, hcomp⟩ := ih (colInsert store n d) (count + 1)
          refine ⟨s', c', ?_, storeLe_trans (storeLe_colInsert store n d) hle, ?_⟩
          · simp only [persistEdgesLoop]
            rw [if_pos hk, if_neg hh]
            simp only [okBehavior, safeInsertRes]
            exact he
          · intro d0 hd0 hk0
            rcases List.mem_cons.mp hd0 with rfl | hd0
            · refine storeLe_colHas hle n d0.docKey ?_
              rw [colHas_eq_mem, storeKeys_colInsert]
              simp
            · exact hcomp d0 hd0 hk0
      · obtain ⟨s', c', he, hle, hcomp⟩ := ih store count
        refine ⟨s', c', ?_, hle, ?_⟩
        · simp only [persistEdgesLoop]
          rw [if_neg hk]
          exact he
        · intro d0 hd0 hk0
          rcases List.mem_cons.mp hd0 with rfl | hd0
          · exact absurd hk0 hk
          · exact hcomp d0 hd0 hk0

theorem peLoop_all_present (n : String) (docs : List Doc) :
    ∀ (store : Store) (count : Nat),
      (∀ d ∈ docs, d.docKey ≠ "" → colHas store n d.docKey = true) →
      persistEdgesLoop okBehavior n store count docs = .ok (store, count) := by
  induction docs with
  | nil =>
      intro store count _
      simp [persistEdgesLoop]
  | cons d rest ih =>
      intro store count h
      by_cases hk : d.docKey ≠ ""
      · have hh := h d (List.mem_cons_self d rest) hk
        simp only [persistEdgesLoop]
        rw [if_pos hk, if_pos hh]
        exact ih store count (fun d0 hd0 => h d0 (List.mem_cons_of_mem d hd0))
      · simp only [persistEdgesLoop]
        rw [if_neg hk]
        exact ih store count (fun d0 hd0 => h d0 (List.mem_cons_of_mem d hd0))

end PharmaNel

namespace PharmaNel

theorem pv_first (n : String) (docs : List Doc) (store : Store) : ∃ s',
    persistVertices okBehavior store n docs
      = .ok (s', docs.countP (fun d => d.docKey ≠ "")) ∧
    StoreLe store s' ∧
    (∀ d ∈ docs, d.docKey ≠ "" → colHas s' n d.docKey = true) := by
  unfold persistVertices
  by_cases hd : docs = []
  · subst hd
    exact ⟨store, by simp, storeLe_refl store, by simp⟩
  · rw [if_neg hd]
    obtain ⟨s', he, hle, hcomp⟩ := pvLoop_ok n docs (ensureCollection store n) 0
    refine ⟨s', ?_, storeLe_trans (storeLe_ensureCollection store n) hle, hcomp⟩
    rw [he, Nat.zero_add]

theorem pv_second (n : String) (docs : List Doc) (sFin t : Store)
    (hkeys : ∀ m, storeKeys t m = storeKeys sFin m)
    (hhas : ∀ m, alHas sFin m = true → alHas t m = true)
    (hcomp : ∀ d ∈ docs, d.docKey ≠ "" → colHas sFin n d.docKey = true) :
    ∃ t', persistVertices okBehavior t n docs
        = .ok (t', docs.countP (fun d => d.docKey ≠ "")) ∧
      (∀ m, storeKeys t' m = storeKeys sFin m) ∧
      (∀ m, alHas sFin m = true → alHas t' m = true) := by
  unfold persistVertices
  by_cases hd : docs = []
  · subst hd
    exact ⟨t, by simp, hkeys, hhas⟩
  · rw [if_neg hd]
    obtain ⟨t', he, hk2, hh2⟩ := pvLoop_all_present n docs (ensureCollection t n) 0
      (fun d0 hd0 hk0 => by
        rw [colHas_keys_eq (storeKeys_ensureCollection t n n),
            colHas_keys_eq (hkeys n)]
        exact hcomp d0 hd0 hk0)
    refine ⟨t', by rw [he, Nat.zero_add], ?_, ?_⟩
    · intro m
      rw [hk2 m, storeKeys_ensureCollection, hkeys m]
    · intro m hm
      exact hh2 m (alHas_ensureCollection_mono t n m (hhas m hm))

theorem comp_transfer {α : Type} (f g : α → Doc) (hfg : ∀ a, (f a).docKey = (g a).docKey)
    (l : List α) (n : String) (sFin : Store)
    (h : ∀ d ∈ l.map g, d.docKey ≠ "" → colHas sFin n d.docKey = true) :
    ∀ d ∈ l.map f, d.docKey ≠ "" → colHas sFin n d.docKey = true := by
  intro d hd hk
  rcases List.mem_map.mp hd with ⟨a, ha, rfl⟩
  rw [hfg a] at hk ⊢
  exact h (g a) (List.mem_map.mpr ⟨a, ha, rfl⟩) hk

theorem countP_key_map {α : Type} (f g : α → Doc) (hfg : ∀ a, (f a).docKey = (g a).docKey)
    (l : List α) :
    (l.map f).countP (fun d => d.docKey ≠ "")
      = (l.map g).countP (fun d => d.docKey ≠ "") := by
  induction l with
  | nil => rfl
  | cons a t ih => simp only [List.map_cons, List.countP_cons, ih, hfg a]

theorem peFold_ok (groups : List (String × List Doc)) :
    ∀ (st : Store × Nat), ∃ s' c',
      (groups.foldlM (fun (acc : Store × Nat) pair =>
        persistEdgesLoop okBehavior pair.1 (ensureCollection acc.1 pair.1) acc.2 pair.2) st)
        = .ok (s', c') ∧
      StoreLe st.1 s' ∧
      (∀ p ∈ groups, alHas s' p.1 = true ∧
        ∀ d ∈ p.2, d.docKey ≠ "" → colHas s' p.1 d.docKey = true) := by
  induction groups with
  | nil =>
      intro st
      exact ⟨st.1, st.2, rfl, storeLe_refl _, by simp⟩
  | cons p rest ih =>
      intro st
      obtain ⟨s1, c1, he1, hle1, hcomp1⟩ := peLoop_ok p.1 p.2 (ensureCollection st.1 p.1) st.2
      obtain ⟨s', c', he2, hle2, hcompR⟩ := ih (s1, c1)
      refine ⟨s', c', ?_, ?_, ?_⟩
      · simp only [List.foldlM_cons]
        rw [he1]
        exact he2
      · exact storeLe_trans (storeLe_trans (storeLe_ensureCollection st.1 p.1) hle1) hle2
      · intro q hq
        rcases List.mem_cons.mp hq with rfl | hq
        · refine ⟨hle2.2 q.1 (hle1.2 q.1 (alHas_ensureCollection_self st.1 q.1)), ?_⟩
          intro d hd hk
          exact storeLe_colHas hle2 q.1 d.docKey (hcomp1 d hd hk)
        · exact hcompR q hq

theorem peFold_all_present (groups : List (String × List Doc)) :
    ∀ (st : Store × Nat),
      (∀ p ∈ groups, alHas st.1 p.1 = true ∧
        ∀ d ∈ p.2, d.docKey ≠ "" → colHas st.1 p.1 d.docKey = true) →
      (groups.foldlM (fun (acc : Store × Nat) pair =>
        persistEdgesLoop okBehavior pair.1 (ensureCollection acc.1 pair.1) acc.2 pair.2) st)
        = .ok st := by
  induction groups with
  | nil =>
      intro st _
      rfl
  | cons p rest ih =>
      intro st h
      have hhead := h p (List.mem_cons_self p rest)
      have hens : ensureCollection st.1 p.1 = st.1 := by
        unfold ensureCollection
        rw [if_pos hhead.1]
      simp only [List.foldlM_cons]
      rw [hens, peLoop_all_present p.1 p.2 st.1 st.2 hhead.2]
      exact ih st (fun q hq => h q (List.mem_cons_of_mem p hq))

theorem pe_first (edges : List EdgeT) (store : Store) : ∃ s' c,
    persistEdges okBehavior store edges = .ok (s', c) ∧
    StoreLe store s' ∧
    (∀ p ∈ groupEdges edges, alHas s' p.1 = true ∧
      ∀ d ∈ p.2, d.docKey ≠ "" → colHas s' p.1 d.docKey = true) := by
  unfold persistEdges
  by_cases he : edges = []
  · rw [if_pos he]
    refine ⟨store, 0, rfl, storeLe_refl store, ?_⟩
    subst he
    simp [groupEdges]
  · rw [if_neg he]
    obtain ⟨s', c', hfold, hle, hcomp⟩ := peFold_ok (groupEdges edges) (store, 0)
    exact ⟨s', c', hfold, hle, hcomp⟩

theorem pe_second (edges : List EdgeT) (sFin t : Store)
    (hkeys : ∀ m, storeKeys t m = storeKeys sFin m)
    (hhas : ∀ m, alHas sFin m = true → alHas t m = true)
    (hcomp : ∀ p ∈ groupEdges edges, alHas sFin p.1 = true ∧
      ∀ d ∈ p.2, d.docKey ≠ "" → colHas sFin p.1 d.docKey = true) :
    persistEdges okBehavior t edges = .ok (t, 0) := by
  unfold persistEdges
  by_cases he : edges = []
  · rw [if_pos he]
  · rw [if_neg he]
    exact peFold_all_present (groupEdges edges) (t, 0) (fun p hp =>
      ⟨hhas p.1 (hcomp p hp).1, fun d hd hk => by
        rw [colHas_keys_eq (hkeys p.1)]
        exact (hcomp p hp).2 d hd hk⟩)

end PharmaNel

namespace PharmaNel

theorem exBind_ok {α β : Type} (a : α) (f : α → Except String β) :
    (Except.ok a >>= f) = f a := rfl

theorem exPure {β : Type} (a : β) : (pure a : Except String β) = Except.ok a := rfl

set_option maxHeartbeats 1000000 in
/-- C3: persisting the same finished accumulator twice in a row is idempotent
on store contents: both runs succeed, the second run changes no collection's
key column (every vertex write lands as an update of the existing document and
every edge insert is skipped because its content-hash key is already stored),
the per-collection vertex counts of the second run equal those of the first,
and the second run's edge count is zero. -/
theorem C3_persist_idempotent (data : GraphData) (store : Store) (now now2 : String) :
    ∃ s1 c1 s2 c2,
      persistGraphData okBehavior store data now = .ok (s1, c1) ∧
      persistGraphData okBehavior s1 data now2 = .ok (s2, c2) ∧
      (∀ n, storeKeys s2 n = storeKeys s1 n) ∧
      c2 = c1.dropLast ++ [("edges", 0)] := by
  obtain ⟨t1, e1, le1, cp1⟩ := pv_first "drugs" (data.drugs.map (fun p => drugToDict now p.2)) store
  obtain ⟨t2, e2, le2, cp2⟩ := pv_first "substances" (data.substances.map (fun p => substanceToDict now p.2)) t1
  obtain ⟨t3, e3, le3, cp3⟩ := pv_first "manufacturers" (data.manufacturers.map (fun p => manufacturerToDict now p.2)) t2
  obtain ⟨t4, e4, le4, cp4⟩ := pv_first "routes" (data.routes.map (fun p => routeToDict now p.2)) t3
  obtain ⟨t5, e5, le5, cp5⟩ := pv_first "dosage_forms" (data.dosage_forms.map (fun p => dosageFormToDict now p.2)) t4
  obtain ⟨t6, e6, le6, cp6⟩ := pv_first "pharm_classes" (data.pharm_classes.map (fun p => pharmClassToDict now p.2)) t5
  obtain ⟨t7, e7, le7, cp7⟩ := pv_first "reactions" (data.reactions.map (fun p => reactionToDict now p.2)) t6
  obtain ⟨t8, e8, le8, cp8⟩ := pv_first "applications" (data.applications.map (fun p => applicationToDict now p.2)) t7
  obtain ⟨t9, e9, le9, cp9⟩ := pv_first "products" (data.products.map (fun p => productToDict now p.2)) t8
  obtain ⟨t10, e10, le10, cp10⟩ := pv_first "interactions" (data.interactions.map (fun p => interactionToDict now p.2)) t9
  obtain ⟨t11, e11, le11, cp11⟩ := pv_first "drug_labels" (data.drug_labels.map (fun p => drugLabelToDict now p.2)) t10
  obtain ⟨s1, ce, ee, lee, cpe⟩ := pe_first data.edges t11
  have L11 : StoreLe t11 s1 := lee
  have L10 : StoreLe t10 s1 := storeLe_trans le11 L11
  have L9 : StoreLe t9 s1 := storeLe_trans le10 L10
  have L8 : StoreLe t8 s1 := storeLe_trans le9 L9
  have L7 : StoreLe t7 s1 := storeLe_trans le8 L8
  have L6 : StoreLe t6 s1 := storeLe_trans le7 L7
  have L5 : StoreLe t5 s1 := storeLe_trans le6 L6
  have L4 : StoreLe t4 s1 := storeLe_trans le5 L5
  have L3 : StoreLe t3 s1 := storeLe_trans le4 L4
  have L2 : StoreLe t2 s1 := storeLe_trans le3 L3
  have L1 : StoreLe t1 s1 := storeLe_trans le2 L2
  have hrun1 : persistGraphData okBehavior store data now
      = .ok (s1, [("drugs", (data.drugs.map (fun p => drugToDict now p.2)).countP (fun d => d.docKey ≠ "")), ("substances", (data.substances.map (fun p => substanceToDict now p.2)).countP (fun d => d.docKey ≠ "")), ("manufacturers", (data.manufacturers.map (fun p => manufacturerToDict now p.2)).countP (fun d => d.docKey ≠ "")), ("routes", (data.routes.map (fun p => routeToDict now p.2)).countP (fun d => d.docKey ≠ "")), ("dosage_forms", (data.dosage_forms.map (fun p => dosageFormToDict now p.2)).countP (fun d => d.docKey ≠ "")), ("pharm_classes", (data.pharm_classes.map (fun p => pharmClassToDict now p.2)).countP (fun d => d.docKey ≠ "")), ("reactions", (data.reactions.map (fun p => reactionToDict now p.2)).countP (fun d => d.docKey ≠ "")), ("applications", (data.applications.map (fun p => applicationToDict now p.2)).countP (fun d => d.docKey ≠ "")), ("products", (data.products.map (fun p => productToDict now p.2)).countP (fun d => d.docKey ≠ "")), ("interactions", (data.interactions.map (fun p => interactionToDict now p.2)).countP (fun d => d.docKey ≠ "")), ("drug_labels", (data.drug_labels.map (fun p => drugLabelToDict now p.2)).countP (fun d => d.docKey ≠ "")), ("edges", ce)]) := by
    simp only [persistGraphData, e1, e2, e3, e4, e5, e6, e7, e8, e9, e10, e11, ee, exBind_ok, exPure]
  have K0 : ∀ m, storeKeys s1 m = storeKeys s1 m := fun m => rfl
  have H0 : ∀ m, alHas s1 m = true → alHas s1 m = true := fun m h => h
  obtain ⟨u1, f1, K1, H1⟩ := pv_second "drugs" (data.drugs.map (fun p => drugToDict now2 p.2)) s1 s1 K0 H0
      (comp_transfer (fun p => drugToDict now2 p.2) (fun p => drugToDict now p.2) (by intro p; rfl) data.drugs "drugs" s1
        (fun d hd hk => storeLe_colHas L1 "drugs" d.docKey (cp1 d hd hk)))
  obtain ⟨u2, f2, K2, H2⟩ := pv_second "substances" (data.substances.map (fun p => substanceToDict now2 p.2)) s1 u1 K1 H1
      (comp_transfer (fun p => substanceToDict now2 p.2) (fun p => substanceToDict now p.2) (by intro p; rfl) data.substances "substances" s1
        (fun d hd hk => storeLe_colHas L2 "substances" d.docKey (cp2 d hd hk)))
  obtain ⟨u3, f3, K3, H3⟩ := pv_second "manufacturers" (data.manufacturers.map (fun p => manufacturerToDict now2 p.2)) s1 u2 K2 H2
      (comp_transfer (fun p => manufacturerToDict now2 p.2) (fun p => manufacturerToDict now p.2) (by intro p; rfl) data.manufacturers "manufacturers" s1
        (fun d hd hk => storeLe_colHas L3 "manufacturers" d.docKey (cp3 d hd hk)))
  obtain ⟨u4, f4, K4, H4⟩ := pv_second "routes" (data.routes.map (fun p => routeToDict now2 p.2)) s1 u3 K3 H3
      (comp_transfer (fun p => routeToDict now2 p.2) (fun p => routeToDict now p.2) (by intro p; rfl) data.routes "routes" s1
        (fun d hd hk => storeLe_colHas L4 "routes" d.docKey (cp4 d hd hk)))
  obtain ⟨u5, f5, K5, H5⟩ := pv_second "dosage_forms" (data.dosage_forms.map (fun p => dosageFormToDict now2 p.2)) s1 u4 K4 H4
      (comp_transfer (fun p => dosageFormToDict now2 p.2) (fun p => dosageFormToDict now p.2) (by intro p; rfl) data.dosage_forms "dosage_forms" s1
        (fun d hd hk => storeLe_colHas L5 "dosage_forms" d.docKey (cp5 d hd hk)))
  obtain ⟨u6, f6, K6, H6⟩ := pv_second "pharm_classes" (data.pharm_classes.map (fun p => pharmClassToDict now2 p.2)) s1 u5 K5 H5
      (comp_transfer (fun p => pharmClassToDict now2 p.2) (fun p => pharmClassToDict now p.2) (by intro p; rfl) data.pharm_classes "pharm_classes" s1
        (fun d hd hk => storeLe_colHas L6 "pharm_classes" d.docKey (cp6 d hd hk)))
  obtain ⟨u7, f7, K7, H7⟩ := pv_second "reactions" (data.reactions.map (fun p => reactionToDict now2 p.2)) s1 u6 K6 H6
      (comp_transfer (fun p => reactionToDict now2 p.2) (fun p => reactionToDict now p.2) (by intro p; rfl) data.reactions "reactions" s1
        (fun d hd hk => storeLe_colHas L7 "reactions" d.docKey (cp7 d hd hk)))
  obtain ⟨u8, f8, K8, H8⟩ := pv_second "applications" (data.applications.map (fun p => applicationToDict now2 p.2)) s1 u7 K7 H7
      (comp_transfer (fun p => applicationToDict now2 p.2) (fun p => applicationToDict now p.2) (by intro p; rfl) data.applications "applications" s1
        (fun d hd hk => storeLe_colHas L8 "applications" d.docKey (cp8 d hd hk)))
  obtain ⟨u9, f9, K9, H9⟩ := pv_second "products" (data.products.map (fun p => productToDict now2 p.2)) s1 u8 K8 H8
      (comp_transfer (fun p => productToDict now2 p.2) (fun p => productToDict now p.2) (by intro p; rfl) data.products "products" s1
        (fun d hd hk => storeLe_colHas L9 "products" d.docKey (cp9 d hd hk)))
  obtain ⟨u10, f10, K10, H10⟩ := pv_second "interactions" (data.interactions.map (fun p => interactionToDict now2 p.2)) s1 u9 K9 H9
      (comp_transfer (fun p => interactionToDict now2 p.2) (fun p => interactionToDict now p.2) (by intro p; rfl) data.interactions "interactions" s1
        (fun d hd hk => storeLe_colHas L10 "interactions" d.docKey (cp10 d hd hk)))
  obtain ⟨u11, f11, K11, H11⟩ := pv_second "drug_labels" (data.drug_labels.map (fun p => drugLabelToDict now2 p.2)) s1 u10 K10 H10
      (comp_transfer (fun p => drugLabelToDict now2 p.2) (fun p => drugLabelToDict now p.2) (by intro p; rfl) data.drug_labels "drug_labels" s1
        (fun d hd hk => storeLe_colHas L11 "drug_labels" d.docKey (cp11 d hd hk)))
  have fe : persistEdges okBehavior u11 data.edges = .ok (u11, 0) :=
    pe_second data.edges s1 u11 K11 H11 cpe
  have hrun2 : persistGraphData okBehavior s1 data now2
      = .ok (u11, [("drugs", (data.drugs.map (fun p => drugToDict now2 p.2)).countP (fun d => d.docKey ≠ "")), ("substances", (data.substances.map (fun p => substanceToDict now2 p.2)).countP (fun d => d.docKey ≠ "")), ("manufacturers", (data.manufacturers.map (fun p => manufacturerToDict now2 p.2)).countP (fun d => d.docKey ≠ "")), ("routes", (data.routes.map (fun p => routeToDict now2 p.2)).countP (fun d => d.docKey ≠ "")), ("dosage_forms", (data.dosage_forms.map (fun p => dosageFormToDict now2 p.2)).countP (fun d => d.docKey ≠ "")), ("pharm_classes", (data.pharm_classes.map (fun p => pharmClassToDict now2 p.2)).countP (fun d => d.docKey ≠ "")), ("reactions", (data.reactions.map (fun p => reactionToDict now2 p.2)).countP (fun d => d.docKey ≠ "")), ("applications", (data.applications.map (fun p => applicationToDict now2 p.2)).countP (fun d => d.docKey ≠ "")), ("products", (data.products.map (fun p => productToDict now2 p.2)).countP (fun d => d.docKey ≠ "")), ("interactions", (data.interactions.map (fun p => interactionToDict now2 p.2)).countP (fun d => d.docKey ≠ "")), ("drug_labels", (data.drug_labels.map (fun p => drugLabelToDict now2 p.2)).countP (fun d => d.docKey ≠ "")), ("edges", 0)]) := by
    simp only [persistGraphData, f1, f2, f3, f4, f5, f6, f7, f8, f9, f10, f11, fe, exBind_ok, exPure]
  refine ⟨s1, _, u11, _, hrun1, hrun2, K11, ?_⟩
  have q1 : (data.drugs.map (fun p => drugToDict now2 p.2)).countP (fun d => d.docKey ≠ "")
      = (data.drugs.map (fun p => drugToDict now p.2)).countP (fun d => d.docKey ≠ "") :=
    countP_key_map (fun p => drugToDict now2 p.2) (fun p => drugToDict now p.2) (by intro p; rfl) data.drugs
  have q2 : (data.substances.map (fun p => substanceToDict now2 p.2)).countP (fun d => d.docKey ≠ "")
      = (data.substances.map (fun p => substanceToDict now p.2)).countP (fun d => d.docKey ≠ "") :=
    countP_key_map (fun p => substanceToDict now2 p.2) (fun p => substanceToDict now p.2) (by intro p; rfl) data.substances
  have q3 : (data.manufacturers.map (fun p => manufacturerToDict now2 p.2)).countP (fun d => d.docKey ≠ "")
      = (data.manufacturers.map (fun p => manufacturerToDict now p.2)).countP (fun d => d.docKey ≠ "") :=
    countP_key_map (fun p => manufacturerToDict now2 p.2) (fun p => manufacturerToDict now p.2) (by intro p; rfl) data.manufacturers
  have q4 : (data.routes.map (fun p => routeToDict now2 p.2)).countP (fun d => d.docKey ≠ "")
      = (data.routes.map (fun p => routeToDict now p.2)).countP (fun d => d.docKey ≠ "") :=
    countP_key_map (fun p => routeToDict now2 p.2) (fun p => routeToDict now p.2) (by intro p; rfl) data.routes
  have q5 : (data.dosage_forms.map (fun p => dosageFormToDict now2 p.2)).countP (fun d => d.docKey ≠ "")
      = (data.dosage_forms.map (fun p => dosageFormToDict now p.2)).countP (fun d => d.docKey ≠ "") :=
    countP_key_map (fun p => dosageFormToDict now2 p.2) (fun p => dosageFormToDict now p.2) (by intro p; rfl) data.dosage_forms
  have q6 : (data.pharm_classes.map (fun p => pharmClassToDict now2 p.2)).countP (fun d => d.docKey ≠ "")
      = (data.pharm_classes.map (fun p => pharmClassToDict now p.2)).countP (fun d => d.docKey ≠ "") :=
    countP_key_map (fun p => pharmClassToDict now2 p.2) (fun p => pharmClassToDict now p.2) (by intro p; rfl) data.pharm_classes
  have q7 : (data.reactions.map (fun p => reactionToDict now2 p.2)).countP (fun d => d.docKey ≠ "")
      = (data.reactions.map (fun p => reactionToDict now p.2)).countP (fun d => d.docKey ≠ "") :=
    countP_key_map (fun p => reactionToDict now2 p.2) (fun p => reactionToDict now p.2) (by intro p; rfl) data.reactions
  have q8 : (data.applications.map (fun p => applicationToDict now2 p.2)).countP (fun d => d.docKey ≠ "")
      = (data.applications.map (fun p => applicationToDict now p.2)).countP (fun d => d.docKey ≠ "") :=
    countP_key_map (fun p => applicationToDict now2 p.2) (fun p => applicationToDict now p.2) (by intro p; rfl) data.applications
  have q9 : (data.products.map (fun p => productToDict now2 p.2)).countP (fun d => d.docKey ≠ "")
      = (data.products.map (fun p => productToDict now p.2)).countP (fun d => d.docKey ≠ "") :=
    countP_key_map (fun p => productToDict now2 p.2) (fun p => productToDict now p.2) (by intro p; rfl) data.products
  have q10 : (data.interactions.map (fun p => interactionToDict now2 p.2)).countP (fun d => d.docKey ≠ "")
      = (data.interactions.map (fun p => interactionToDict now p.2)).countP (fun d => d.docKey ≠ "") :=
    countP_key_map (fun p => interactionToDict now2 p.2) (fun p => interactionToDict now p.2) (by intro p; rfl) data.interactions
  have q11 : (data.drug_labels.map (fun p => drugLabelToDict now2 p.2)).countP (fun d => d.docKey ≠ "")
      = (data.drug_labels.map (fun p => drugLabelToDict now p.2)).countP (fun d => d.docKey ≠ "") :=
    countP_key_map (fun p => drugLabelToDict now2 p.2) (fun p => drugLabelToDict now p.2) (by intro p; rfl) data.drug_labels
  rw [q1, q2, q3, q4, q5, q6, q7, q8, q9, q10, q11]
  rfl

/-- A graph with one drug, exercising C3 on a concrete run. -/
def c3Data : GraphData := { search_term := "t", drugs := [("a", { key := "a" })] }

/-- A concrete double run of `persist_graph_data` via C3. -/
theorem C3_persist_idempotent_witness :
    ∃ s1 c1 s2 c2,
      persistGraphData okBehavior [] c3Data "t1" = .ok (s1, c1) ∧
      persistGraphData okBehavior s1 c3Data "t2" = .ok (s2, c2) ∧
      (∀ n, storeKeys s2 n = storeKeys s1 n) ∧
      c2 = c1.dropLast ++ [("edges", 0)] :=
  C3_persist_idempotent c3Data [] "t1" "t2"

end PharmaNel
